import Mathlib

/-!
# ELF header reader: `0x15-file_io/100-elf_header.c`

A shallow embedding of the program that opens a file, reads the 64 bytes of an
`Elf64_Ehdr`, checks the magic and prints the identification fields, the
object type and the entry point.

Conventions of the embedding

* A byte is a `Fin 256`; a file is the list of its bytes.
* The file system is a function from a path to the contents of the file, or
  `none` when `open` fails.  `read` on the descriptor delivers the first
  `sizeof (Elf64_Ehdr)` bytes that the file has (fewer for a short file).
* The program reads the header into a C `struct`, so multi-byte fields are
  taken in the byte order of the machine that runs the program.  That byte
  order is the parameter `host` of the embedding.
* Effects are recorded in a `World`: the characters given to the standard
  output stream, those given to standard error, and the numbers of successful
  `open` calls and of `close` calls.
* A C array read has three outcomes: a string, the null pointer (a hole left
  by designated initialisers) or a read past the end of the array.  The last
  one is undefined behaviour and ends the run in `Outcome.undefined`, which
  records the effects that precede it.  `printf ("%s")` of the null pointer is
  rendered the way glibc does, as `(null)`.

The function `set_bit` of `0x14-bit_manipulation/3-set_bit.c` is embedded in a
section of its own, for the LP64 target.
-/

namespace ElfHeader

/-- One octet. -/
abbrev Byte := Fin 256

/-- Byte order of the machine the program runs on. -/
inductive ByteOrder
  | lsb
  | msb
  deriving DecidableEq, Repr

/-! ## Constants of `<elf.h>` used by the program -/

/-- Size of `e_ident`. -/
def EI_NIDENT : Nat := 16
/-- Index of the first magic byte. -/
def EI_MAG0 : Nat := 0
/-- Index of the second magic byte. -/
def EI_MAG1 : Nat := 1
/-- Index of the third magic byte. -/
def EI_MAG2 : Nat := 2
/-- Index of the fourth magic byte. -/
def EI_MAG3 : Nat := 3
/-- Index of the class byte. -/
def EI_CLASS : Nat := 4
/-- Index of the data encoding byte. -/
def EI_DATA : Nat := 5
/-- Index of the version byte. -/
def EI_VERSION : Nat := 6
/-- Index of the OS/ABI byte. -/
def EI_OSABI : Nat := 7
/-- Index of the ABI version byte. -/
def EI_ABIVERSION : Nat := 8

/-- First magic byte, `0x7f`. -/
def ELFMAG0 : Nat := 0x7f
/-- Second magic byte, the letter E. -/
def ELFMAG1 : Nat := 'E'.toNat
/-- Third magic byte, the letter L. -/
def ELFMAG2 : Nat := 'L'.toNat
/-- Fourth magic byte, the letter F. -/
def ELFMAG3 : Nat := 'F'.toNat

def ELFCLASSNONE : Nat := 0
def ELFCLASS32 : Nat := 1
def ELFCLASS64 : Nat := 2

def ELFDATANONE : Nat := 0
def ELFDATA2LSB : Nat := 1
def ELFDATA2MSB : Nat := 2

def ET_NONE : Nat := 0
def ET_REL : Nat := 1
def ET_EXEC : Nat := 2
def ET_DYN : Nat := 3
def ET_CORE : Nat := 4
def ET_LOPROC : Nat := 0xff00
def ET_HIPROC : Nat := 0xffff

def ELFOSABI_NONE : Nat := 0
def ELFOSABI_HPUX : Nat := 1
def ELFOSABI_NETBSD : Nat := 2
def ELFOSABI_LINUX : Nat := 3
def ELFOSABI_SOLARIS : Nat := 6
def ELFOSABI_AIX : Nat := 7
def ELFOSABI_IRIX : Nat := 8
def ELFOSABI_FREEBSD : Nat := 9
def ELFOSABI_TRU64 : Nat := 10
def ELFOSABI_MODESTO : Nat := 11
def ELFOSABI_OPENBSD : Nat := 12
def ELFOSABI_ARM_AEABI : Nat := 64
def ELFOSABI_ARM : Nat := 97
def ELFOSABI_STANDALONE : Nat := 255

/-- The value of `sizeof (Elf64_Ehdr)`. -/
def sizeof_header : Nat := 64
/-- Offset of the field `e_type` in `Elf64_Ehdr`. -/
def offsetof_e_type : Nat := 16
/-- Offset of the field `e_entry` in `Elf64_Ehdr`. -/
def offsetof_e_entry : Nat := 24

/-! ## Effects -/

/-- What a run has done so far. -/
structure World where
  /-- Characters given to the standard output stream, in order. -/
  stdout : String
  /-- Characters written to standard error, in order. -/
  stderr : String
  /-- Number of successful `open` calls. -/
  opened : Nat
  /-- Number of `close` calls. -/
  closed : Nat
  deriving DecidableEq, Repr

/-- The state of a process that has done nothing yet. -/
def World.start : World := { stdout := "", stderr := "", opened := 0, closed := 0 }

/-- Append text to standard output, as `printf` does. -/
def put_out (w : World) (s : String) : World := { w with stdout := w.stdout ++ s }

/-- Append text to standard error, as `dprintf (STDERR_FILENO, ...)` does. -/
def put_err (w : World) (s : String) : World := { w with stderr := w.stderr ++ s }

/-- How a function of the program, or the program itself, ends. -/
inductive Outcome
  /-- The function returned to its caller. -/
  | returned (w : World)
  /-- The process ended with this exit status. -/
  | exited (status : Nat) (w : World)
  /-- Undefined behaviour was reached; `w` holds the effects before it. -/
  | undefined (w : World)
  deriving DecidableEq, Repr

/-! ## C arrays of strings and `printf` conversions -/

/-- The value obtained by reading one element of an array of `const char *`. -/
inductive CStr
  /-- A pointer to this string. -/
  | str (s : String)
  /-- The null pointer. -/
  | null
  /-- The index is past the end of the array. -/
  | outOfBounds
  deriving DecidableEq, Repr

/-- Length of an array of unspecified size given by designated initialisers:
one more than the largest designated index. -/
def arrayLen (inits : List (Nat × String)) : Nat :=
  inits.foldl (fun n p => max n (p.1 + 1)) 0

/-- Read element `i` of an array given by designated initialisers: elements
that are not designated are null pointers. -/
def arrayGet (inits : List (Nat × String)) (i : Nat) : CStr :=
  if arrayLen inits ≤ i then CStr.outOfBounds
  else
    match inits.reverse.lookup i with
    | some s => CStr.str s
    | none => CStr.null

/-- Conversion `%s`: `none` when the argument was read out of bounds. -/
def fmt_s : CStr → Option String
  | CStr.str s => some s
  | CStr.null => some "(null)"
  | CStr.outOfBounds => none

/-- Conversion `%02x` of a byte: at least two lowercase hexadecimal digits. -/
def fmt_02x (n : Nat) : String :=
  String.mk (List.replicate (2 - (Nat.toDigits 16 n).length) '0' ++ Nat.toDigits 16 n)

/-- Conversion `%lx` of an `unsigned long`. -/
def fmt_lx (n : Nat) : String := String.mk (Nat.toDigits 16 n)

/-- Conversion `%u` of an `unsigned int`. -/
def fmt_u (n : Nat) : String := String.mk (Nat.toDigits 10 n)

/-- Conversion `%d` given an `unsigned int`: the 32 bits are read as signed. -/
def fmt_d (n : Nat) : String :=
  if n < 2 ^ 31 then String.mk (Nat.toDigits 10 n)
  else "-" ++ String.mk (Nat.toDigits 10 (2 ^ 32 - n))

/-! ## The header -/

/-- The unsigned integer held by a run of bytes in the byte order `host`. -/
def load (host : ByteOrder) (bs : List Byte) : Nat :=
  match host with
  | ByteOrder.lsb => bs.foldr (fun b acc => b.val + 256 * acc) 0
  | ByteOrder.msb => bs.foldl (fun acc b => 256 * acc + b.val) 0

/-- The fields of `Elf64_Ehdr` that the program uses. -/
structure Elf64_Ehdr where
  /-- The 16 identification bytes. -/
  e_ident : List Byte
  /-- Object type, an `Elf64_Half`. -/
  e_type : Nat
  /-- Entry point, an `Elf64_Addr`. -/
  e_entry : Nat
  deriving DecidableEq, Repr

/-- The `struct` seen by the program after `read` has filled it with `buf`. -/
def Elf64_Ehdr.ofBytes (host : ByteOrder) (buf : List Byte) : Elf64_Ehdr :=
  { e_ident := buf.take EI_NIDENT
    e_type := load host ((buf.drop offsetof_e_type).take 2)
    e_entry := load host ((buf.drop offsetof_e_entry).take 8) }

/-- Read `e_ident[i]` as an unsigned value. -/
def ident (e_ident : List Byte) (i : Nat) : Nat := (e_ident.getD i 0).val

/-! ## The printing functions -/

/-- Embeds `print_magic`. -/
def print_magic (e_ident : List Byte) (w : World) : World :=
  (List.range EI_NIDENT).foldl
    (fun w i =>
      put_out w (fmt_02x (ident e_ident i) ++
        String.singleton (if i = EI_NIDENT - 1 then '\n' else ' ')))
    (put_out w "  Magic:   ")

/-- The array `types` of `print_type`. -/
def types : List (Nat × String) :=
  [ (ET_NONE, "NONE (Unknown type)"),
    (ET_REL, "REL (Relocatable file)"),
    (ET_EXEC, "EXEC (Executable file)"),
    (ET_DYN, "DYN (Shared object file)"),
    (ET_CORE, "CORE (Core file)"),
    (ET_LOPROC, "LOPROC (Processor-specific)"),
    (ET_HIPROC, "HIPROC (Processor-specific)") ]

/-- Embeds `print_type`; `none` when the array read is out of bounds. -/
def print_type (type : Nat) (w : World) : Option World :=
  (fmt_s (arrayGet types type)).map
    (fun s => put_out w ("  Type:                              " ++ s ++ "\n"))

/-- The array `classes` of `print_class`. -/
def classes : List (Nat × String) :=
  [ (ELFCLASSNONE, "NONE (Unknown class)"),
    (ELFCLASS32, "ELF32"),
    (ELFCLASS64, "ELF64") ]

/-- Embeds `print_class`; `none` when the array read is out of bounds. -/
def print_class (cls : Nat) (w : World) : Option World :=
  (fmt_s (arrayGet classes cls)).map
    (fun s => put_out w ("  Class:                             " ++ s ++ "\n"))

/-- The array `datas` of `print_data`. -/
def datas : List (Nat × String) :=
  [ (ELFDATANONE, "NONE (Unknown data format)"),
    (ELFDATA2LSB, "2's complement, little endian"),
    (ELFDATA2MSB, "2's complement, big endian") ]

/-- Embeds `print_data`; `none` when the array read is out of bounds. -/
def print_data (data : Nat) (w : World) : Option World :=
  (fmt_s (arrayGet datas data)).map
    (fun s => put_out w ("  Data:                              " ++ s ++ "\n"))

/-- Embeds `print_version`. -/
def print_version (version : Nat) (w : World) : World :=
  put_out w ("  Version:                           " ++ fmt_d version ++ " (current)\n")

/-- The array `osabis` of `print_osabi`. -/
def osabis : List (Nat × String) :=
  [ (ELFOSABI_NONE, "UNIX - System V"),
    (ELFOSABI_HPUX, "HP-UX"),
    (ELFOSABI_NETBSD, "NetBSD"),
    (ELFOSABI_LINUX, "Linux"),
    (ELFOSABI_SOLARIS, "Solaris"),
    (ELFOSABI_AIX, "AIX"),
    (ELFOSABI_IRIX, "IRIX"),
    (ELFOSABI_FREEBSD, "FreeBSD"),
    (ELFOSABI_TRU64, "TRU64"),
    (ELFOSABI_MODESTO, "Novell Modesto"),
    (ELFOSABI_OPENBSD, "OpenBSD"),
    (ELFOSABI_ARM_AEABI, "ARM EABI"),
    (ELFOSABI_ARM, "ARM"),
    (ELFOSABI_STANDALONE, "Standalone (embedded) application") ]

/-- Embeds `print_osabi`; `none` when the array read is out of bounds. -/
def print_osabi (osabi : Nat) (w : World) : Option World :=
  (fmt_s (arrayGet osabis osabi)).map
    (fun s => put_out w ("  OS/ABI:                            " ++ s ++ "\n"))

/-- Embeds `print_abi_version`. -/
def print_abi_version (abi : Nat) (w : World) : World :=
  put_out w ("  ABI Version:                       " ++ fmt_u abi ++ "\n")

/-- Embeds `print_entry`. -/
def print_entry (entry : Nat) (w : World) : World :=
  put_out w ("  Entry point address:               0x" ++ fmt_lx entry ++ "\n")

/-! ## `elf_header` and `main` -/

/-- Embeds `elf_header`.  `fs` gives the contents of the file at a path, or
`none` when `open` fails. -/
def elf_header (host : ByteOrder) (fs : String → Option (List Byte))
    (filename : String) (w : World) : Outcome :=
  match fs filename with
  | none =>
    Outcome.exited 98 (put_err w ("Error: Unable to open file '" ++ filename ++ "'\n"))
  | some file =>
    let w := { w with opened := w.opened + 1 }
    let buf := file.take sizeof_header
    if buf.length ≠ sizeof_header then
      Outcome.exited 98
        (put_err w ("Error: Unable to read ELF header from file '" ++ filename ++ "'\n"))
    else
      let header := Elf64_Ehdr.ofBytes host buf
      if ident header.e_ident EI_MAG0 ≠ ELFMAG0 ∨
          ident header.e_ident EI_MAG1 ≠ ELFMAG1 ∨
          ident header.e_ident EI_MAG2 ≠ ELFMAG2 ∨
          ident header.e_ident EI_MAG3 ≠ ELFMAG3 then
        Outcome.exited 98 (put_err w ("Error: '" ++ filename ++ "' is not an ELF file\n"))
      else
        let w := put_out w "ELF Header:\n"
        let w := print_magic header.e_ident w
        match print_class (ident header.e_ident EI_CLASS) w with
        | none => Outcome.undefined w
        | some w =>
          match print_data (ident header.e_ident EI_DATA) w with
          | none => Outcome.undefined w
          | some w =>
            let w := print_version (ident header.e_ident EI_VERSION) w
            match print_osabi (ident header.e_ident EI_OSABI) w with
            | none => Outcome.undefined w
            | some w =>
              let w := print_abi_version (ident header.e_ident EI_ABIVERSION) w
              match print_type header.e_type w with
              | none => Outcome.undefined w
              | some w =>
                let w := print_entry header.e_entry w
                Outcome.returned { w with closed := w.closed + 1 }

/-- The argument `av[i]` as a C string: null when `i` is `ac`. -/
def arg (av : List String) (i : Nat) : CStr :=
  match av.get? i with
  | some s => CStr.str s
  | none => CStr.null

/-- Embeds `main`; `av` is the argument vector, whose length is `ac`. -/
def main (host : ByteOrder) (fs : String → Option (List Byte)) (av : List String) : Outcome :=
  if av.length ≠ 2 then
    match fmt_s (arg av 0) with
    | none => Outcome.undefined World.start
    | some s => Outcome.exited 98 (put_err World.start ("Usage: " ++ s ++ " elf_filename\n"))
  else
    match elf_header host fs (av.getD 1 "") World.start with
    | Outcome.returned w => Outcome.exited 0 w
    | o => o

/-! ## Auxiliary definitions -/

/-- The statements of `elf_header` from the first `printf` to `close`, for a
header already read and checked: used to reason about the report. -/
def report_steps (header : Elf64_Ehdr) (w : World) : Outcome :=
  let w := put_out w "ELF Header:\n"
  let w := print_magic header.e_ident w
  match print_class (ident header.e_ident EI_CLASS) w with
  | none => Outcome.undefined w
  | some w =>
    match print_data (ident header.e_ident EI_DATA) w with
    | none => Outcome.undefined w
    | some w =>
      let w := print_version (ident header.e_ident EI_VERSION) w
      match print_osabi (ident header.e_ident EI_OSABI) w with
      | none => Outcome.undefined w
      | some w =>
        let w := print_abi_version (ident header.e_ident EI_ABIVERSION) w
        match print_type header.e_type w with
        | none => Outcome.undefined w
        | some w =>
          let w := print_entry header.e_entry w
          Outcome.returned { w with closed := w.closed + 1 }

/-- The effects recorded in an outcome. -/
def Outcome.world : Outcome → World
  | Outcome.returned w => w
  | Outcome.exited _ w => w
  | Outcome.undefined w => w

/-- The magic sequence `0x7f 'E' 'L' 'F'`. -/
def ELFMAG : List Byte := [0x7f, 0x45, 0x4c, 0x46]

/-! ## Sample inputs -/

/-- The magic bytes followed by the given bytes, padded with zeros to 64. -/
def mkFile (rest : List Byte) : List Byte :=
  ([0x7f, 0x45, 0x4c, 0x46] ++ rest ++ List.replicate 64 0).take 64

/-- A file system holding one file, at path `f`. -/
def oneFile (f : String) (bytes : List Byte) : String → Option (List Byte) :=
  fun p => if p = f then some bytes else none

/-- A 64-byte file whose second byte is zero instead of the letter E. -/
def badMagicFile : List Byte := [0x7f, 0x00, 0x4c, 0x46] ++ List.replicate 60 0

/-- A header with the magic and class byte 99. -/
def class99File : List Byte := mkFile [99, 1, 1]

/-- A header with the magic, class byte 2 and data byte 3. -/
def data3File : List Byte := mkFile [2, 3, 1]

/-- Byte `i` of `v`, counting from the least significant. -/
def byteAt (v i : Nat) : Byte := ⟨(v / 256 ^ i) % 256, Nat.mod_lt _ (by decide)⟩

/-- The 8 bytes of a 64-bit value in the byte order `o`. -/
def encode64 (o : ByteOrder) (v : Nat) : List Byte :=
  match o with
  | ByteOrder.lsb => (List.range 8).map (byteAt v)
  | ByteOrder.msb => ((List.range 8).map (byteAt v)).reverse

/-- A 64-byte header with the magic, class 2, the data byte `d`, version 1,
type 0 and the given 8 bytes of entry point. -/
def entryFile (d : Byte) (entry : List Byte) : List Byte :=
  [0x7f, 0x45, 0x4c, 0x46, 2, d, 1, 0, 0, 0, 0, 0, 0, 0, 0, 0,
   0, 0, 0x3e, 0, 1, 0, 0, 0] ++ entry.take 8 ++ List.replicate 32 0

/-- A header that declares big-endian data and holds the entry point
`0x400078` in big-endian order. -/
def beFile : List Byte := entryFile 2 (encode64 ByteOrder.msb 0x400078)

/-- A header that declares little-endian data and holds the entry point
`0x400078` in little-endian order. -/
def leFile : List Byte := entryFile 1 (encode64 ByteOrder.lsb 0x400078)

/-! ## The failures of the run, as conditions on the input -/

/-- The number of arguments is not one. -/
def UsageError (av : List String) : Prop := av.length ≠ 2

/-- The path cannot be opened. -/
def OpenError (fs : String → Option (List Byte)) (av : List String) : Prop :=
  ∃ prog f, av = [prog, f] ∧ fs f = none

/-- The file has fewer bytes than the header. -/
def TruncatedReadError (fs : String → Option (List Byte)) (av : List String) : Prop :=
  ∃ prog f file, av = [prog, f] ∧ fs f = some file ∧ file.length < 64

/-- The header was read and its first four bytes are not the magic. -/
def MagicMismatchError (fs : String → Option (List Byte)) (av : List String) : Prop :=
  ∃ prog f file, av = [prog, f] ∧ fs f = some file ∧ 64 ≤ file.length ∧ file.take 4 ≠ ELFMAG

/-- One of the four failures. -/
def Failure (fs : String → Option (List Byte)) (av : List String) : Prop :=
  UsageError av ∨ OpenError fs av ∨ TruncatedReadError fs av ∨ MagicMismatchError fs av

/-! ## The report, stated independently of the printing functions -/

/-- Concatenation of a list of strings. -/
def cat : List String → String
  | [] => ""
  | s :: t => s ++ cat t

/-- The Magic line: the label, then every identification byte as two
hexadecimal digits, a space after each but the last, which a newline follows. -/
def magic_text (e_ident : List Byte) : String :=
  "  Magic:   " ++
    cat ((List.range 16).map
      (fun i => fmt_02x (ident e_ident i) ++ (if i = 15 then "\n" else " ")))

/-- Names of the class codes. -/
def class_names : List (Nat × String) :=
  [(0, "NONE (Unknown class)"), (1, "ELF32"), (2, "ELF64")]

/-- Names of the data encoding codes. -/
def data_names : List (Nat × String) :=
  [(0, "NONE (Unknown data format)"), (1, "2's complement, little endian"),
    (2, "2's complement, big endian")]

/-- Names of the OS/ABI codes. -/
def osabi_names : List (Nat × String) :=
  [(0, "UNIX - System V"), (1, "HP-UX"), (2, "NetBSD"), (3, "Linux"), (6, "Solaris"),
    (7, "AIX"), (8, "IRIX"), (9, "FreeBSD"), (10, "TRU64"), (11, "Novell Modesto"),
    (12, "OpenBSD"), (64, "ARM EABI"), (97, "ARM"),
    (255, "Standalone (embedded) application")]

/-- Names of the object type codes. -/
def type_names : List (Nat × String) :=
  [(0, "NONE (Unknown type)"), (1, "REL (Relocatable file)"), (2, "EXEC (Executable file)"),
    (3, "DYN (Shared object file)"), (4, "CORE (Core file)"),
    (0xff00, "LOPROC (Processor-specific)"), (0xffff, "HIPROC (Processor-specific)")]

/-- The whole report for a header, given the labels of its four coded fields. -/
def report_text (header : Elf64_Ehdr) (lc ld lo lt : String) : String :=
  cat
    [ "ELF Header:\n",
      magic_text header.e_ident,
      "  Class:                             " ++ lc ++ "\n",
      "  Data:                              " ++ ld ++ "\n",
      "  Version:                           " ++ fmt_d (ident header.e_ident 6) ++ " (current)\n",
      "  OS/ABI:                            " ++ lo ++ "\n",
      "  ABI Version:                       " ++ fmt_u (ident header.e_ident 8) ++ "\n",
      "  Type:                              " ++ lt ++ "\n",
      "  Entry point address:               0x" ++ fmt_lx header.e_entry ++ "\n" ]

/-- The header of scenario 1: class 2, data 1, version 1, OS/ABI 0, ABI version
0, type 2 and entry point `0x400078`, both in little-endian order. -/
def scenario1 : List Byte :=
  [0x7f, 0x45, 0x4c, 0x46, 2, 1, 1, 0, 0, 0, 0, 0, 0, 0, 0, 0,
   2, 0, 0x3e, 0, 1, 0, 0, 0,
   0x78, 0x00, 0x40, 0, 0, 0, 0, 0] ++ List.replicate 32 0

/-! ## `set_bit`: `0x14-bit_manipulation/3-set_bit.c`

The target is LP64: a pointer and an `unsigned long` both have 8 bytes.  The
pointer `n` is taken to be valid; the embedding receives the value it points
to and returns the value left there. -/

/-- The value of `sizeof (n)`, the size of a pointer. -/
def sizeof_n : Nat := 8

/-- The `long` value of `1L << index` for an index below 64: the bit pattern
of `2 ^ index` read in two's complement, as gcc and clang compute it. -/
def shl_1L (index : Nat) : Int :=
  if 2 ^ index % 2 ^ 64 < 2 ^ 63 then ((2 ^ index % 2 ^ 64 : Nat) : Int)
  else ((2 ^ index % 2 ^ 64 : Nat) : Int) - 2 ^ 64

/-- Conversion of a `long` to `unsigned long`. -/
def to_ulong (x : Int) : Nat := (x % 2 ^ 64).toNat

/-- Embeds `set_bit`: the `int` returned and the value left in `*n`. -/
def set_bit (n : Nat) (index : Nat) : Int × Nat :=
  if index ≥ sizeof_n * 8 then (-1, n)
  else
    let n' := n ||| to_ulong (shl_1L index)
    (if n' ≠ 0 then 1 else 0, n')

/-! ## Reading numerals back -/

/-- The lowercase hexadecimal digits, in order of value. -/
def hexDigits : List Char := "0123456789abcdef".data

/-- The lowercase hexadecimal digit of a value below 16. -/
def hexChar (d : Nat) : Char := hexDigits.getD d '0'

/-- The value of a digit. -/
def digitVal (c : Char) : Nat := hexDigits.indexOf c

/-- The number written by a list of digits in base `b`, most significant first. -/
def readBase (b : Nat) (cs : List Char) : Nat :=
  cs.foldl (fun acc c => b * acc + digitVal c) 0

/-- A byte as two lowercase hexadecimal digits. -/
def hex2 (b : Byte) : String := String.mk [hexChar (b.val / 16), hexChar (b.val % 16)]

/-- Strings separated by single spaces. -/
def spaced : List String → String
  | [] => ""
  | [s] => s
  | s :: t => s ++ " " ++ spaced t

/-- The string has no newline character. -/
def noNewline (s : String) : Prop := '\n' ∉ s.data

/-- The 2 bytes of a 16-bit value in the byte order `o`. -/
def encode16 (o : ByteOrder) (v : Nat) : List Byte :=
  match o with
  | ByteOrder.lsb => [byteAt v 0, byteAt v 1]
  | ByteOrder.msb => [byteAt v 1, byteAt v 0]

/-- A 64-byte header with the magic, class 2, the data byte `d`, version 1,
the given 2 bytes of object type and entry point 0. -/
def typeFile (d : Byte) (type : List Byte) : List Byte :=
  [0x7f, 0x45, 0x4c, 0x46, 2, d, 1, 0, 0, 0, 0, 0, 0, 0, 0, 0] ++ type.take 2 ++
    [0x3e, 0, 1, 0, 0, 0] ++ List.replicate 40 0

/-- A header that declares big-endian data and holds the type `ET_EXEC` in
big-endian order. -/
def beExecFile : List Byte := typeFile 2 (encode16 ByteOrder.msb ET_EXEC)

/-- A header that declares little-endian data and holds the type `ET_EXEC` in
little-endian order. -/
def leExecFile : List Byte := typeFile 1 (encode16 ByteOrder.lsb ET_EXEC)

/-- A header that declares big-endian data and holds the type `ET_DYN` in
big-endian order. -/
def beDynFile : List Byte := typeFile 2 (encode16 ByteOrder.msb ET_DYN)

/-! ## Basic facts -/

theorem ident_take (l : List Byte) (n i : Nat) (h : i < n) :
    ident (l.take n) i = ident l i := by
  unfold ident
  rw [List.getD_eq_getElem?_getD, List.getD_eq_getElem?_getD, List.getElem?_take_of_lt h]

theorem take4_eq_ELFMAG (file : List Byte) (hlen : 4 ≤ file.length) :
    file.take 4 = ELFMAG ↔
      (ident file EI_MAG0 = ELFMAG0 ∧ ident file EI_MAG1 = ELFMAG1 ∧
        ident file EI_MAG2 = ELFMAG2 ∧ ident file EI_MAG3 = ELFMAG3) := by
  match file, hlen with
  | b0 :: b1 :: b2 :: b3 :: rest, _ =>
    simp only [ident, ELFMAG, EI_MAG0, EI_MAG1, EI_MAG2, EI_MAG3, ELFMAG0, ELFMAG1, ELFMAG2,
      ELFMAG3, List.take, List.getD_cons_zero, List.getD_cons_succ, List.cons.injEq, and_true]
    have e0 : b0 = 0x7f ↔ b0.val = 0x7f := by rw [Fin.ext_iff]; rfl
    have e1 : b1 = 0x45 ↔ b1.val = 'E'.toNat := by rw [Fin.ext_iff]; rfl
    have e2 : b2 = 0x4c ↔ b2.val = 'L'.toNat := by rw [Fin.ext_iff]; rfl
    have e3 : b3 = 0x46 ↔ b3.val = 'F'.toNat := by rw [Fin.ext_iff]; rfl
    rw [e0, e1, e2, e3]

theorem elf_header_open_fails (host : ByteOrder) (fs : String → Option (List Byte))
    (filename : String) (w : World) (hopen : fs filename = none) :
    elf_header host fs filename w =
      Outcome.exited 98 (put_err w ("Error: Unable to open file '" ++ filename ++ "'\n")) := by
  simp [elf_header, hopen]

theorem elf_header_short_read (host : ByteOrder) (fs : String → Option (List Byte))
    (filename : String) (w : World) (file : List Byte) (hopen : fs filename = some file)
    (hlen : file.length < 64) :
    elf_header host fs filename w =
      Outcome.exited 98 (put_err { w with opened := w.opened + 1 }
        ("Error: Unable to read ELF header from file '" ++ filename ++ "'\n")) := by
  have h : min sizeof_header file.length ≠ sizeof_header := by
    simp only [sizeof_header]; omega
  simp [elf_header, hopen, List.length_take, h]

theorem elf_header_bad_magic (host : ByteOrder) (fs : String → Option (List Byte))
    (filename : String) (w : World) (file : List Byte) (hopen : fs filename = some file)
    (hlen : 64 ≤ file.length) (hmagic : file.take 4 ≠ ELFMAG) :
    elf_header host fs filename w =
      Outcome.exited 98 (put_err { w with opened := w.opened + 1 }
        ("Error: '" ++ filename ++ "' is not an ELF file\n")) := by
  have h : min sizeof_header file.length = sizeof_header := by
    simp only [sizeof_header]; omega
  have hm := hmagic
  rw [Ne, take4_eq_ELFMAG file (by omega)] at hm
  have hm' : ident file EI_MAG0 ≠ ELFMAG0 ∨ ident file EI_MAG1 ≠ ELFMAG1 ∨
      ident file EI_MAG2 ≠ ELFMAG2 ∨ ident file EI_MAG3 ≠ ELFMAG3 := by
    by_contra hc
    simp only [not_or, not_not] at hc
    exact hm hc
  have i0 : ident (List.take EI_NIDENT (List.take sizeof_header file)) EI_MAG0 = ident file EI_MAG0 := by
    rw [ident_take _ _ _ (by decide), ident_take _ _ _ (by decide)]
  have i1 : ident (List.take EI_NIDENT (List.take sizeof_header file)) EI_MAG1 = ident file EI_MAG1 := by
    rw [ident_take _ _ _ (by decide), ident_take _ _ _ (by decide)]
  have i2 : ident (List.take EI_NIDENT (List.take sizeof_header file)) EI_MAG2 = ident file EI_MAG2 := by
    rw [ident_take _ _ _ (by decide), ident_take _ _ _ (by decide)]
  have i3 : ident (List.take EI_NIDENT (List.take sizeof_header file)) EI_MAG3 = ident file EI_MAG3 := by
    rw [ident_take _ _ _ (by decide), ident_take _ _ _ (by decide)]
  simp only [elf_header, hopen, List.length_take, h, ne_eq, not_true_eq_false, if_false,
    Elf64_Ehdr.ofBytes, i0, i1, i2, i3]
  rw [if_pos hm']

theorem elf_header_good_magic (host : ByteOrder) (fs : String → Option (List Byte))
    (filename : String) (w : World) (file : List Byte) (hopen : fs filename = some file)
    (hlen : 64 ≤ file.length) (hmagic : file.take 4 = ELFMAG) :
    elf_header host fs filename w =
      report_steps (Elf64_Ehdr.ofBytes host (file.take sizeof_header))
        { w with opened := w.opened + 1 } := by
  have h : min sizeof_header file.length = sizeof_header := by
    simp only [sizeof_header]; omega
  have hm := (take4_eq_ELFMAG file (by omega)).1 hmagic
  have hm' : ¬ (ident file EI_MAG0 ≠ ELFMAG0 ∨ ident file EI_MAG1 ≠ ELFMAG1 ∨
      ident file EI_MAG2 ≠ ELFMAG2 ∨ ident file EI_MAG3 ≠ ELFMAG3) := by
    simp only [not_or, not_not]
    exact hm
  have i0 : ident (List.take EI_NIDENT (List.take sizeof_header file)) EI_MAG0 = ident file EI_MAG0 := by
    rw [ident_take _ _ _ (by decide), ident_take _ _ _ (by decide)]
  have i1 : ident (List.take EI_NIDENT (List.take sizeof_header file)) EI_MAG1 = ident file EI_MAG1 := by
    rw [ident_take _ _ _ (by decide), ident_take _ _ _ (by decide)]
  have i2 : ident (List.take EI_NIDENT (List.take sizeof_header file)) EI_MAG2 = ident file EI_MAG2 := by
    rw [ident_take _ _ _ (by decide), ident_take _ _ _ (by decide)]
  have i3 : ident (List.take EI_NIDENT (List.take sizeof_header file)) EI_MAG3 = ident file EI_MAG3 := by
    rw [ident_take _ _ _ (by decide), ident_take _ _ _ (by decide)]
  simp only [elf_header, hopen, List.length_take, h, ne_eq, not_true_eq_false, if_false,
    Elf64_Ehdr.ofBytes, i0, i1, i2, i3]
  rw [if_neg hm']
  rfl

theorem report_steps_not_exited (header : Elf64_Ehdr) (w : World) (status : Nat)
    (w' : World) : report_steps header w ≠ Outcome.exited status w' := by
  unfold report_steps
  intro h
  dsimp only at h
  split at h
  · cases h
  · split at h
    · cases h
    · split at h
      · cases h
      · split at h
        · cases h
        · cases h

/-! ## The magic check -/

/-- C1: when `open` succeeds and the file has at least 64 bytes, `elf_header`
ends the process with status 98, the line `Error: '<path>' is not an ELF file`
on standard error and standard output untouched, exactly when the first four
bytes are not `0x7f 'E' 'L' 'F'`; with the magic in place `elf_header` does not
exit at all. -/
theorem C1_magic_rejection_iff (host : ByteOrder) (fs : String → Option (List Byte))
    (filename : String) (w : World) (file : List Byte) (hopen : fs filename = some file)
    (hlen : 64 ≤ file.length) :
    (elf_header host fs filename w =
        Outcome.exited 98
          { stdout := w.stdout
            stderr := w.stderr ++ ("Error: '" ++ filename ++ "' is not an ELF file\n")
            opened := w.opened + 1
            closed := w.closed } ↔
      file.take 4 ≠ ELFMAG) ∧
    (file.take 4 = ELFMAG →
      ∀ (status : Nat) (w' : World),
        elf_header host fs filename w ≠ Outcome.exited status w') := by
  constructor
  · constructor
    · intro h hm
      rw [elf_header_good_magic host fs filename w file hopen hlen hm] at h
      exact report_steps_not_exited _ _ _ _ h
    · intro hm
      rw [elf_header_bad_magic host fs filename w file hopen hlen hm]
      rfl
  · intro hm status w'
    rw [elf_header_good_magic host fs filename w file hopen hlen hm]
    exact report_steps_not_exited _ _ _ _

/-- Witness of C1 at a file whose second magic byte is zero. -/
theorem C1_magic_rejection_iff_witness :
    oneFile "a.out" badMagicFile "a.out" = some badMagicFile ∧
    64 ≤ badMagicFile.length ∧
    badMagicFile.take 4 ≠ ELFMAG ∧
    elf_header ByteOrder.lsb (oneFile "a.out" badMagicFile) "a.out" World.start =
      Outcome.exited 98
        { stdout := ""
          stderr := "Error: 'a.out' is not an ELF file\n"
          opened := 1
          closed := 0 } :=
  ⟨by decide, by decide, by decide,
    ((C1_magic_rejection_iff ByteOrder.lsb (oneFile "a.out" badMagicFile) "a.out" World.start
      badMagicFile (by decide) (by decide)).1).2 (by decide)⟩

/-! ## Exit paths of `main` -/

theorem main_two_args (host : ByteOrder) (fs : String → Option (List Byte))
    (prog f : String) :
    main host fs [prog, f] =
      match elf_header host fs f World.start with
      | Outcome.returned w => Outcome.exited 0 w
      | o => o := by
  simp [main]

theorem main_usage (host : ByteOrder) (fs : String → Option (List Byte))
    (av : List String) (h : UsageError av) :
    ∃ w, main host fs av = Outcome.exited 98 w ∧ w.stdout = "" := by
  unfold UsageError at h
  cases av with
  | nil => exact ⟨put_err World.start "Usage: (null) elf_filename\n", rfl, rfl⟩
  | cons a t =>
    refine ⟨put_err World.start ("Usage: " ++ a ++ " elf_filename\n"), ?_, rfl⟩
    unfold main
    rw [if_pos h]
    rfl

theorem main_failure (host : ByteOrder) (fs : String → Option (List Byte))
    (av : List String) (h : Failure fs av) :
    ∃ w, main host fs av = Outcome.exited 98 w ∧ w.stdout = "" := by
  rcases h with h | ⟨prog, f, rfl, ho⟩ | ⟨prog, f, file, rfl, ho, hl⟩ |
    ⟨prog, f, file, rfl, ho, hl, hm⟩
  · exact main_usage host fs av h
  · rw [main_two_args, elf_header_open_fails host fs f _ ho]
    exact ⟨_, rfl, rfl⟩
  · rw [main_two_args, elf_header_short_read host fs f _ file ho hl]
    exact ⟨_, rfl, rfl⟩
  · rw [main_two_args, elf_header_bad_magic host fs f _ file ho hl hm]
    exact ⟨_, rfl, rfl⟩

theorem not_failure_iff (fs : String → Option (List Byte)) (av : List String) :
    ¬ Failure fs av ↔
      ∃ prog f file, av = [prog, f] ∧ fs f = some file ∧ 64 ≤ file.length ∧
        file.take 4 = ELFMAG := by
  constructor
  · intro h
    match av with
    | [] => exact absurd (Or.inl (by simp [UsageError])) h
    | [_] => exact absurd (Or.inl (by simp [UsageError])) h
    | _ :: _ :: _ :: _ => exact absurd (Or.inl (by simp [UsageError])) h
    | [prog, f] =>
      cases ho : fs f with
      | none => exact absurd (Or.inr (Or.inl ⟨prog, f, rfl, ho⟩)) h
      | some file =>
        by_cases hl : file.length < 64
        · exact absurd (Or.inr (Or.inr (Or.inl ⟨prog, f, file, rfl, ho, hl⟩))) h
        · by_cases hm : file.take 4 = ELFMAG
          · exact ⟨prog, f, file, rfl, ho, by omega, hm⟩
          · exact absurd
              (Or.inr (Or.inr (Or.inr ⟨prog, f, file, rfl, ho, by omega, hm⟩))) h
  · rintro ⟨prog, f, file, rfl, ho, hl, hm⟩ h
    rcases h with h | ⟨p, g, e, ho'⟩ | ⟨p, g, file', e, ho', hl'⟩ |
      ⟨p, g, file', e, ho', hl', hm'⟩
    · simp [UsageError] at h
    · simp only [List.cons.injEq, and_true] at e
      rw [← e.2, ho] at ho'
      cases ho'
    · simp only [List.cons.injEq, and_true] at e
      rw [← e.2, ho] at ho'
      cases ho'
      omega
    · simp only [List.cons.injEq, and_true] at e
      rw [← e.2, ho] at ho'
      cases ho'
      exact hm' hm

theorem main_not_failure (host : ByteOrder) (fs : String → Option (List Byte))
    (av : List String) (h : ¬ Failure fs av) :
    ∃ prog f file, av = [prog, f] ∧ fs f = some file ∧ 64 ≤ file.length ∧
      file.take 4 = ELFMAG ∧
      main host fs av =
        match report_steps (Elf64_Ehdr.ofBytes host (file.take sizeof_header))
            { World.start with opened := World.start.opened + 1 } with
        | Outcome.returned w => Outcome.exited 0 w
        | o => o := by
  obtain ⟨prog, f, file, rfl, ho, hl, hm⟩ := (not_failure_iff fs av).1 h
  refine ⟨prog, f, file, rfl, ho, hl, hm, ?_⟩
  rw [main_two_args, elf_header_good_magic host fs f _ file ho hl hm]

/-- C3: a file that opens but holds fewer than 64 bytes ends the run with exit
status 98, the line `Error: Unable to read ELF header from file '<path>'` on
standard error and nothing on standard output. -/
theorem C3_short_file_unable_to_read (host : ByteOrder)
    (fs : String → Option (List Byte)) (prog filename : String) (file : List Byte)
    (hopen : fs filename = some file) (hlen : file.length < 64) :
    main host fs [prog, filename] =
      Outcome.exited 98
        { stdout := ""
          stderr := "Error: Unable to read ELF header from file '" ++ filename ++ "'\n"
          opened := 1
          closed := 0 } := by
  rw [main_two_args, elf_header_short_read host fs filename _ file hopen hlen]
  rfl

/-- Witness of C3 at a file of three bytes. -/
theorem C3_short_file_unable_to_read_witness :
    oneFile "three" [1, 2, 3] "three" = some [1, 2, 3] ∧
    ([1, 2, 3] : List Byte).length < 64 ∧
    main ByteOrder.lsb (oneFile "three" [1, 2, 3]) ["elf_header", "three"] =
      Outcome.exited 98
        { stdout := ""
          stderr := "Error: Unable to read ELF header from file 'three'\n"
          opened := 1
          closed := 0 } :=
  ⟨by decide, by decide,
    C3_short_file_unable_to_read ByteOrder.lsb (oneFile "three" [1, 2, 3]) "elf_header"
      "three" [1, 2, 3] (by decide) (by decide)⟩

/-! ## The report -/

theorem put_out_put_out (w : World) (a b : String) :
    put_out (put_out w a) b = put_out w (a ++ b) := by
  simp [put_out, String.append_assoc]

theorem foldl_put_out (g : Nat → String) (l : List Nat) (w : World) :
    l.foldl (fun w i => put_out w (g i)) w = put_out w (cat (l.map g)) := by
  induction l generalizing w with
  | nil => simp [cat, put_out]
  | cons a t ih => simp [List.foldl, ih, cat, put_out_put_out]

theorem print_magic_eq (e_ident : List Byte) (w : World) :
    print_magic e_ident w = put_out w (magic_text e_ident) := by
  unfold print_magic magic_text
  have h := foldl_put_out
    (fun i => fmt_02x (ident e_ident i) ++
      String.singleton (if i = EI_NIDENT - 1 then '\n' else ' '))
    (List.range EI_NIDENT) (put_out w "  Magic:   ")
  rw [h, put_out_put_out]
  rfl

theorem report_steps_eq (header : Elf64_Ehdr) (w : World) (lc ld lo lt : String)
    (hc : fmt_s (arrayGet classes (ident header.e_ident EI_CLASS)) = some lc)
    (hd : fmt_s (arrayGet datas (ident header.e_ident EI_DATA)) = some ld)
    (ho : fmt_s (arrayGet osabis (ident header.e_ident EI_OSABI)) = some lo)
    (ht : fmt_s (arrayGet types header.e_type) = some lt) :
    report_steps header w =
      Outcome.returned
        { stdout := w.stdout ++ report_text header lc ld lo lt
          stderr := w.stderr
          opened := w.opened
          closed := w.closed + 1 } := by
  unfold report_steps
  simp only [print_class, print_data, print_osabi, print_type, hc, hd, ho, ht,
    Option.map_some', print_magic_eq, print_version, print_abi_version, print_entry,
    put_out_put_out]
  simp only [put_out, report_text, cat, String.append_empty, EI_VERSION, EI_ABIVERSION,
    String.append_assoc]

/-! ## Table reads that stay inside the array -/

theorem arrayGet_of_lt (inits : List (Nat × String)) (i : Nat) (h : i < arrayLen inits) :
    ∃ s, fmt_s (arrayGet inits i) = some s := by
  unfold arrayGet
  rw [if_neg (by omega)]
  cases List.lookup i inits.reverse with
  | none => exact ⟨_, rfl⟩
  | some s => exact ⟨_, rfl⟩

theorem ident_lt (l : List Byte) (i : Nat) : ident l i < 256 := (l.getD i 0).isLt

theorem ident_header (host : ByteOrder) (file : List Byte) (i : Nat) (hi : i < 16) :
    ident (Elf64_Ehdr.ofBytes host (file.take sizeof_header)).e_ident i = ident file i := by
  unfold Elf64_Ehdr.ofBytes
  simp only
  rw [ident_take _ _ _ (by simpa [EI_NIDENT] using hi),
    ident_take _ _ _ (by simp only [sizeof_header]; omega)]

theorem load_lsb_lt (l : List Byte) : load ByteOrder.lsb l < 256 ^ l.length := by
  induction l with
  | nil => simp [load]
  | cons b t ih =>
    have hb := b.isLt
    simp only [load, List.foldr_cons, List.length_cons, pow_succ] at ih ⊢
    omega

theorem foldl_msb_lt (l : List Byte) (acc : Nat) :
    l.foldl (fun acc b => 256 * acc + b.val) acc < (acc + 1) * 256 ^ l.length := by
  induction l generalizing acc with
  | nil => simp
  | cons b t ih =>
    have hb := b.isLt
    have h := ih (256 * acc + b.val)
    simp only [List.foldl_cons, List.length_cons, pow_succ]
    have h2 : (256 * acc + b.val + 1) * 256 ^ t.length ≤ (acc + 1) * (256 ^ t.length * 256) := by
      have : 256 * acc + b.val + 1 ≤ (acc + 1) * 256 := by omega
      calc (256 * acc + b.val + 1) * 256 ^ t.length
          ≤ ((acc + 1) * 256) * 256 ^ t.length := Nat.mul_le_mul_right _ this
        _ = (acc + 1) * (256 ^ t.length * 256) := by ring
    omega

theorem load_lt (host : ByteOrder) (l : List Byte) : load host l < 256 ^ l.length := by
  cases host with
  | lsb => exact load_lsb_lt l
  | msb =>
    have h := foldl_msb_lt l 0
    simpa [load] using h

theorem e_type_lt (host : ByteOrder) (buf : List Byte) :
    (Elf64_Ehdr.ofBytes host buf).e_type < 65536 := by
  unfold Elf64_Ehdr.ofBytes
  simp only
  have h := load_lt host ((buf.drop offsetof_e_type).take 2)
  have hl : ((buf.drop offsetof_e_type).take 2).length ≤ 2 := by
    rw [List.length_take]; omega
  have hp : 256 ^ ((buf.drop offsetof_e_type).take 2).length ≤ 256 ^ 2 :=
    Nat.pow_le_pow_right (by decide) hl
  omega

theorem mem_of_lookup (l : List (Nat × String)) (k : Nat) (v : String)
    (h : l.lookup k = some v) : (k, v) ∈ l := by
  induction l with
  | nil => simp [List.lookup] at h
  | cons p t ih =>
    obtain ⟨a, b⟩ := p
    by_cases e : k = a
    · subst e
      simp only [List.lookup, beq_self_eq_true] at h
      cases h
      exact List.mem_cons_self _ _
    · have e' : (k == a) = false := by simpa using e
      simp only [List.lookup, e'] at h
      exact List.mem_cons_of_mem _ (ih h)

theorem class_names_sound (c : Nat) (l : String) (h : class_names.lookup c = some l) :
    fmt_s (arrayGet classes c) = some l := by
  have all : ∀ p ∈ class_names, fmt_s (arrayGet classes p.1) = some p.2 := by decide
  exact all _ (mem_of_lookup _ _ _ h)

theorem data_names_sound (d : Nat) (l : String) (h : data_names.lookup d = some l) :
    fmt_s (arrayGet datas d) = some l := by
  have all : ∀ p ∈ data_names, fmt_s (arrayGet datas p.1) = some p.2 := by decide
  exact all _ (mem_of_lookup _ _ _ h)

theorem osabi_names_sound (o : Nat) (l : String) (h : osabi_names.lookup o = some l) :
    fmt_s (arrayGet osabis o) = some l := by
  have all : ∀ p ∈ osabi_names, fmt_s (arrayGet osabis p.1) = some p.2 := by decide
  exact all _ (mem_of_lookup _ _ _ h)

theorem type_names_sound (t : Nat) (l : String) (h : type_names.lookup t = some l) :
    fmt_s (arrayGet types t) = some l := by
  have all : ∀ p ∈ type_names, fmt_s (arrayGet types p.1) = some p.2 := by decide
  exact all _ (mem_of_lookup _ _ _ h)

theorem report_steps_returns (host : ByteOrder) (file : List Byte) (w : World)
    (hc : ident file EI_CLASS ≤ 2) (hd : ident file EI_DATA ≤ 2) :
    ∃ w', report_steps (Elf64_Ehdr.ofBytes host (file.take sizeof_header)) w =
      Outcome.returned w' := by
  have h1 : ident (Elf64_Ehdr.ofBytes host (file.take sizeof_header)).e_ident EI_CLASS <
      arrayLen classes := by
    rw [ident_header host file _ (by decide)]
    have : arrayLen classes = 3 := rfl
    omega
  have h2 : ident (Elf64_Ehdr.ofBytes host (file.take sizeof_header)).e_ident EI_DATA <
      arrayLen datas := by
    rw [ident_header host file _ (by decide)]
    have : arrayLen datas = 3 := rfl
    omega
  have h3 : ident (Elf64_Ehdr.ofBytes host (file.take sizeof_header)).e_ident EI_OSABI <
      arrayLen osabis := ident_lt _ _
  have h4 : (Elf64_Ehdr.ofBytes host (file.take sizeof_header)).e_type < arrayLen types :=
    e_type_lt host _
  obtain ⟨lc, hc'⟩ := arrayGet_of_lt _ _ h1
  obtain ⟨ld, hd'⟩ := arrayGet_of_lt _ _ h2
  obtain ⟨lo, ho'⟩ := arrayGet_of_lt _ _ h3
  obtain ⟨lt, ht'⟩ := arrayGet_of_lt _ _ h4
  exact ⟨_, report_steps_eq _ w lc ld lo lt hc' hd' ho' ht'⟩

/-! ## Exit status -/

theorem elf_header_exit_status (host : ByteOrder) (fs : String → Option (List Byte))
    (f : String) (w : World) (status : Nat) (w' : World)
    (h : elf_header host fs f w = Outcome.exited status w') : status = 98 := by
  cases ho : fs f with
  | none =>
    rw [elf_header_open_fails host fs f w ho] at h
    cases h
    rfl
  | some file =>
    by_cases hl : file.length < 64
    · rw [elf_header_short_read host fs f w file ho hl] at h
      cases h
      rfl
    · by_cases hm : file.take 4 = ELFMAG
      · rw [elf_header_good_magic host fs f w file ho (by omega) hm] at h
        exact absurd h (report_steps_not_exited _ _ _ _)
      · rw [elf_header_bad_magic host fs f w file ho (by omega) hm] at h
        cases h
        rfl

/-- C4: `main` ends with status 98 on each of the four failures; an exit
status it produces is 98 exactly on a failure and 0 otherwise; whenever
`elf_header` returns, having printed the whole report, the input is no failure
and the status is 0, which happens for every header with the magic whose class
and data bytes are at most 2; `main` never ends otherwise than by an exit
status, and `elf_header` itself exits with no status but 98. -/
theorem C4_exit_status (host : ByteOrder) (fs : String → Option (List Byte))
    (av : List String) :
    (Failure fs av → ∃ w, main host fs av = Outcome.exited 98 w) ∧
    (∀ status w, main host fs av = Outcome.exited status w →
      (status = 98 ∧ Failure fs av) ∨ (status = 0 ∧ ¬ Failure fs av)) ∧
    (∀ prog f w, av = [prog, f] →
      elf_header host fs f World.start = Outcome.returned w →
      ¬ Failure fs av ∧ main host fs av = Outcome.exited 0 w) ∧
    (∀ prog f file, av = [prog, f] → fs f = some file → 64 ≤ file.length →
      file.take 4 = ELFMAG → ident file EI_CLASS ≤ 2 → ident file EI_DATA ≤ 2 →
      ∃ w, main host fs av = Outcome.exited 0 w) ∧
    (∀ w, main host fs av ≠ Outcome.returned w) ∧
    (∀ f w status w', elf_header host fs f w = Outcome.exited status w' → status = 98) := by
  refine ⟨?_, ?_, ?_, ?_, ?_, ?_⟩
  · intro h
    obtain ⟨w, hw, _⟩ := main_failure host fs av h
    exact ⟨w, hw⟩
  · intro status w h
    by_cases hf : Failure fs av
    · obtain ⟨w0, hw, _⟩ := main_failure host fs av hf
      rw [hw] at h
      cases h
      exact Or.inl ⟨rfl, hf⟩
    · obtain ⟨prog, f, file, rfl, ho, hl, hm, hmain⟩ := main_not_failure host fs av hf
      rw [hmain] at h
      split at h
      · cases h
        exact Or.inr ⟨rfl, hf⟩
      · rename_i o hne
        exact absurd h (report_steps_not_exited _ _ _ _)
  · rintro prog f w rfl h
    have hmain : main host fs [prog, f] = Outcome.exited 0 w := by
      rw [main_two_args, h]
    refine ⟨?_, hmain⟩
    intro hf
    obtain ⟨w0, hw, _⟩ := main_failure host fs _ hf
    rw [hmain] at hw
    cases hw
  · rintro prog f file rfl ho hl hm hc hd
    obtain ⟨w', hw'⟩ := report_steps_returns host file
      { World.start with opened := World.start.opened + 1 } hc hd
    refine ⟨w', ?_⟩
    rw [main_two_args, elf_header_good_magic host fs f _ file ho hl hm, hw']
  · intro w h
    by_cases hf : Failure fs av
    · obtain ⟨w0, hw, _⟩ := main_failure host fs av hf
      rw [hw] at h
      cases h
    · obtain ⟨prog, f, file, rfl, ho, hl, hm, hmain⟩ := main_not_failure host fs av hf
      rw [hmain] at h
      split at h
      · cases h
      · rename_i o hne
        exact hne w h
  · intro f w status w' h
    exact elf_header_exit_status host fs f w status w' h

/-- Witness of C4: status 0 for the header of scenario 1, status 98 for a file
with a wrong magic byte. -/
theorem C4_exit_status_witness :
    (∃ w, main ByteOrder.lsb (oneFile "a.out" scenario1) ["elf_header", "a.out"] =
      Outcome.exited 0 w) ∧
    (∃ w, main ByteOrder.lsb (oneFile "a.out" badMagicFile) ["elf_header", "a.out"] =
      Outcome.exited 98 w) :=
  ⟨(C4_exit_status ByteOrder.lsb (oneFile "a.out" scenario1)
      ["elf_header", "a.out"]).2.2.2.1 "elf_header" "a.out" scenario1 rfl (by decide)
      (by decide) (by decide) (by decide) (by decide),
    (C4_exit_status ByteOrder.lsb (oneFile "a.out" badMagicFile)
      ["elf_header", "a.out"]).1
      (Or.inr (Or.inr (Or.inr
        ⟨"elf_header", "a.out", badMagicFile, rfl, by decide, by decide, by decide⟩)))⟩

/-! ## Named field values -/

/-- C5, amended: for a header with the magic whose class, data and OS/ABI
bytes have a name and whose object type, as read in the byte order of the
machine that runs the program, has a name, the run ends with status 0 and
standard output is the title, the Magic line and one line per field carrying
the name of the code (the decimal version and ABI version, the hexadecimal
entry point); for the header of scenario 1 on a little-endian machine the
report is the text given. -/
theorem C5_named_values_report :
    (∀ (host : ByteOrder) (fs : String → Option (List Byte)) (prog f : String)
        (file : List Byte) (lc ld lo lt : String),
      fs f = some file → 64 ≤ file.length → file.take 4 = ELFMAG →
      class_names.lookup (ident file EI_CLASS) = some lc →
      data_names.lookup (ident file EI_DATA) = some ld →
      osabi_names.lookup (ident file EI_OSABI) = some lo →
      type_names.lookup (Elf64_Ehdr.ofBytes host (file.take 64)).e_type = some lt →
      main host fs [prog, f] =
        Outcome.exited 0
          { stdout := report_text (Elf64_Ehdr.ofBytes host (file.take 64)) lc ld lo lt
            stderr := ""
            opened := 1
            closed := 1 }) ∧
    main ByteOrder.lsb (oneFile "a.out" scenario1) ["elf_header", "a.out"] =
      Outcome.exited 0
        { stdout :=
            "ELF Header:\n" ++
            "  Magic:   7f 45 4c 46 02 01 01 00 00 00 00 00 00 00 00 00\n" ++
            "  Class:                             ELF64\n" ++
            "  Data:                              2's complement, little endian\n" ++
            "  Version:                           1 (current)\n" ++
            "  OS/ABI:                            UNIX - System V\n" ++
            "  ABI Version:                       0\n" ++
            "  Type:                              EXEC (Executable file)\n" ++
            "  Entry point address:               0x400078\n"
          stderr := ""
          opened := 1
          closed := 1 } := by
  constructor
  · intro host fs prog f file lc ld lo lt ho hl hm hc hd hos ht
    have hc' := class_names_sound _ _ hc
    have hd' := data_names_sound _ _ hd
    have ho' := osabi_names_sound _ _ hos
    have ht' := type_names_sound _ _ ht
    rw [← ident_header host file _ (by decide)] at hc' hd' ho'
    rw [main_two_args, elf_header_good_magic host fs f _ file ho hl hm,
      report_steps_eq _ _ lc ld lo lt hc' hd' ho' ht']
    rfl
  · rfl

/-- Witness of C5, amended: the general statement applied to the header of
scenario 1. -/
theorem C5_named_values_report_witness :
    main ByteOrder.lsb (oneFile "a.out" scenario1) ["elf_header", "a.out"] =
      Outcome.exited 0
        { stdout :=
            report_text (Elf64_Ehdr.ofBytes ByteOrder.lsb (scenario1.take 64)) "ELF64"
              "2's complement, little endian" "UNIX - System V" "EXEC (Executable file)"
          stderr := ""
          opened := 1
          closed := 1 } :=
  C5_named_values_report.1 ByteOrder.lsb (oneFile "a.out" scenario1) "elf_header" "a.out"
    scenario1 "ELF64" "2's complement, little endian" "UNIX - System V"
    "EXEC (Executable file)" (by decide) (by decide) (by decide) (by decide) (by decide)
    (by decide) (by decide)

/-- C5 as stated fails: a header with the magic, class 2, data 2 (big-endian),
OS/ABI 0 and the object type `ET_DYN` stored in the declared, big-endian
order has a name for each of the four codes, yet on a little-endian machine
the type is read as `0x300`, which has no name, and the Type line carries
`(null)` instead of the name of `ET_DYN`. -/
theorem C5_named_type_in_declared_order_not_labelled :
    beDynFile.length = 64 ∧
    beDynFile.take 4 = ELFMAG ∧
    class_names.lookup (ident beDynFile EI_CLASS) = some "ELF64" ∧
    data_names.lookup (ident beDynFile EI_DATA) = some "2's complement, big endian" ∧
    osabi_names.lookup (ident beDynFile EI_OSABI) = some "UNIX - System V" ∧
    (beDynFile.drop 16).take 2 = encode16 ByteOrder.msb ET_DYN ∧
    load ByteOrder.msb ((beDynFile.drop 16).take 2) = ET_DYN ∧
    type_names.lookup ET_DYN = some "DYN (Shared object file)" ∧
    (Elf64_Ehdr.ofBytes ByteOrder.lsb (beDynFile.take 64)).e_type = 0x300 ∧
    type_names.lookup (Elf64_Ehdr.ofBytes ByteOrder.lsb (beDynFile.take 64)).e_type = none ∧
    main ByteOrder.lsb (oneFile "a.out" beDynFile) ["elf_header", "a.out"] =
      Outcome.exited 0
        { stdout :=
            "ELF Header:\n" ++
            "  Magic:   7f 45 4c 46 02 02 01 00 00 00 00 00 00 00 00 00\n" ++
            "  Class:                             ELF64\n" ++
            "  Data:                              2's complement, big endian\n" ++
            "  Version:                           1 (current)\n" ++
            "  OS/ABI:                            UNIX - System V\n" ++
            "  ABI Version:                       0\n" ++
            "  Type:                              (null)\n" ++
            "  Entry point address:               0x0\n"
          stderr := ""
          opened := 1
          closed := 1 } := by
  refine ⟨by decide, by decide, by decide, by decide, by decide, by decide, by decide,
    by decide, by decide, by decide, by rfl⟩

/-! ## Field values without a name -/

theorem report_steps_class_out (header : Elf64_Ehdr) (w : World)
    (h : arrayLen classes ≤ ident header.e_ident EI_CLASS) :
    report_steps header w =
      Outcome.undefined (put_out w ("ELF Header:\n" ++ magic_text header.e_ident)) := by
  unfold report_steps
  simp only [print_class, arrayGet, if_pos h, fmt_s, Option.map_none', print_magic_eq,
    put_out_put_out]

/-- C2: a header with the magic whose class byte is above 2 makes `print_class`
read past the end of its three-element array: the run is undefined after the
title and the Magic line, whatever the other fields are. -/
theorem C2_class_above_2_undefined (host : ByteOrder) (fs : String → Option (List Byte))
    (prog f : String) (file : List Byte) (hopen : fs f = some file)
    (hlen : 64 ≤ file.length) (hmagic : file.take 4 = ELFMAG)
    (hclass : 2 < ident file EI_CLASS) :
    main host fs [prog, f] =
      Outcome.undefined
        { stdout := "ELF Header:\n" ++ magic_text (file.take 16)
          stderr := ""
          opened := 1
          closed := 0 } := by
  have h : arrayLen classes ≤
      ident (Elf64_Ehdr.ofBytes host (file.take sizeof_header)).e_ident EI_CLASS := by
    rw [ident_header host file _ (by decide)]
    have : arrayLen classes = 3 := rfl
    omega
  rw [main_two_args, elf_header_good_magic host fs f _ file hopen hlen hmagic,
    report_steps_class_out _ _ h]
  have e : (Elf64_Ehdr.ofBytes host (file.take sizeof_header)).e_ident = file.take 16 := by
    simp [Elf64_Ehdr.ofBytes, EI_NIDENT, sizeof_header, List.take_take]
  rw [e]
  rfl

/-- Witness of C2: the run on a header with class byte 99. -/
theorem C2_class_above_2_undefined_witness :
    class99File.length = 64 ∧ class99File.take 4 = ELFMAG ∧ ident class99File EI_CLASS = 99 ∧
    main ByteOrder.lsb (oneFile "a.out" class99File) ["elf_header", "a.out"] =
      Outcome.undefined
        { stdout := "ELF Header:\n" ++ magic_text (class99File.take 16)
          stderr := ""
          opened := 1
          closed := 0 } :=
  ⟨by decide, by decide, by decide,
    C2_class_above_2_undefined ByteOrder.lsb (oneFile "a.out" class99File) "elf_header"
      "a.out" class99File (by decide) (by decide) (by decide) (by decide)⟩

/-- C6: for a class value above 2 the array `classes`, of length 3, is read out
of bounds, so `print_class` has no defined result and prints no Class line. -/
theorem C6_print_class_out_of_bounds (cls : Nat) (w : World) (h : 2 < cls) :
    arrayLen classes = 3 ∧ arrayGet classes cls = CStr.outOfBounds ∧
      print_class cls w = none := by
  have hl : arrayLen classes = 3 := rfl
  have hle : arrayLen classes ≤ cls := by omega
  refine ⟨hl, ?_, ?_⟩
  · unfold arrayGet
    rw [if_pos hle]
  · unfold print_class arrayGet
    rw [if_pos hle]
    rfl

/-- Witness of C6 at class value 99. -/
theorem C6_print_class_out_of_bounds_witness :
    arrayLen classes = 3 ∧ arrayGet classes 99 = CStr.outOfBounds ∧
      print_class 99 World.start = none :=
  C6_print_class_out_of_bounds 99 World.start (by decide)

theorem lookup_eq_none (l : List (Nat × String)) (k : Nat) (h : ∀ p ∈ l, p.1 ≠ k) :
    l.lookup k = none := by
  induction l with
  | nil => rfl
  | cons p t ih =>
    obtain ⟨a, b⟩ := p
    have hne : k ≠ a := fun e => h (a, b) (List.mem_cons_self _ _) e.symm
    have e' : (k == a) = false := by simpa using hne
    simp only [List.lookup, e']
    exact ih (fun q hq => h q (List.mem_cons_of_mem _ hq))

theorem ne_of_lookup_eq_none (l : List (Nat × String)) (k : Nat) (h : l.lookup k = none) :
    ∀ p ∈ l, p.1 ≠ k := by
  induction l with
  | nil => intro p hp; cases hp
  | cons q t ih =>
    obtain ⟨a, b⟩ := q
    by_cases e : k = a
    · subst e
      simp [List.lookup] at h
    · have e' : (k == a) = false := by simpa using e
      simp only [List.lookup, e'] at h
      intro p hp
      rcases List.mem_cons.1 hp with rfl | hp
      · exact fun e2 => e e2.symm
      · exact ih h p hp

/-- C7: an OS/ABI byte without a name reads a hole of the array `osabis`, the
null pointer, and `print_osabi` prints the OS/ABI line with `(null)` as its
label. -/
theorem C7_print_osabi_null_label (osabi : Nat) (w : World) (hbyte : osabi < 256)
    (hname : osabi_names.lookup osabi = none) :
    arrayGet osabis osabi = CStr.null ∧
      print_osabi osabi w =
        some (put_out w "  OS/ABI:                            (null)\n") := by
  have hl : ¬ arrayLen osabis ≤ osabi := by
    have : arrayLen osabis = 256 := rfl
    omega
  have keys : ∀ p ∈ osabis.reverse, ∃ q ∈ osabi_names, q.1 = p.1 := by decide
  have hnone : osabis.reverse.lookup osabi = none := by
    apply lookup_eq_none
    intro p hp
    obtain ⟨q, hq, e⟩ := keys p hp
    rw [← e]
    exact ne_of_lookup_eq_none _ _ hname q hq
  have hget : arrayGet osabis osabi = CStr.null := by
    unfold arrayGet
    rw [if_neg hl, hnone]
  refine ⟨hget, ?_⟩
  unfold print_osabi
  rw [hget]
  rfl

/-- Witness of C7 at OS/ABI byte 4. -/
theorem C7_print_osabi_null_label_witness :
    arrayGet osabis 4 = CStr.null ∧
      print_osabi 4 World.start =
        some (put_out World.start "  OS/ABI:                            (null)\n") :=
  C7_print_osabi_null_label 4 World.start (by decide) (by decide)

/-- C8: a 16-bit object type without a name reads a hole of the array `types`,
the null pointer, and `print_type` prints the Type line with `(null)` as its
label, the raw value not appearing. -/
theorem C8_print_type_null_label (type : Nat) (w : World) (hhalf : type < 65536)
    (hname : type_names.lookup type = none) :
    arrayGet types type = CStr.null ∧
      print_type type w =
        some (put_out w "  Type:                              (null)\n") := by
  have hl : ¬ arrayLen types ≤ type := by
    have : arrayLen types = 65536 := rfl
    omega
  have keys : ∀ p ∈ types.reverse, ∃ q ∈ type_names, q.1 = p.1 := by decide
  have hnone : types.reverse.lookup type = none := by
    apply lookup_eq_none
    intro p hp
    obtain ⟨q, hq, e⟩ := keys p hp
    rw [← e]
    exact ne_of_lookup_eq_none _ _ hname q hq
  have hget : arrayGet types type = CStr.null := by
    unfold arrayGet
    rw [if_neg hl, hnone]
  refine ⟨hget, ?_⟩
  unfold print_type
  rw [hget]
  rfl

/-- Witness of C8 at object type 5. -/
theorem C8_print_type_null_label_witness :
    arrayGet types 5 = CStr.null ∧
      print_type 5 World.start =
        some (put_out World.start "  Type:                              (null)\n") :=
  C8_print_type_null_label 5 World.start (by decide) (by decide)

/-! ## The entry point -/

theorem load_encode64 (host : ByteOrder) (v : Nat) (hv : v < 2 ^ 64) :
    load host (encode64 host v) = v := by
  cases host with
  | lsb =>
    simp only [load, encode64, byteAt, List.range, List.range.loop, List.map, List.foldr]
    norm_num
    omega
  | msb =>
    simp only [load, encode64, byteAt, List.range, List.range.loop, List.map, List.reverse,
      List.reverseAux, List.foldl]
    norm_num
    omega

theorem entry_bytes (file : List Byte) :
    ((file.take sizeof_header).drop offsetof_e_entry).take 8 = (file.drop 24).take 8 := by
  simp [sizeof_header, offsetof_e_entry, List.drop_take, List.take_take]

/-- C9, amended: the entry point is read in the byte order of the machine that
runs the program.  For every 64-bit `v` and every file of at least 64 bytes
whose bytes 24 to 31 hold `v` in that order, whatever its data byte, the field
`e_entry` seen by `elf_header` is `v`; and when the file opens, has the magic
and class and data bytes at most 2, the run ends with status 0 and the last
line of the report is the entry point line with the hexadecimal of `v`. -/
theorem C9_entry_round_trip_host_order (host : ByteOrder) (file : List Byte) (v : Nat)
    (hv : v < 2 ^ 64) (hlen : 64 ≤ file.length)
    (hentry : (file.drop 24).take 8 = encode64 host v) :
    (Elf64_Ehdr.ofBytes host (file.take 64)).e_entry = v ∧
    ∀ (fs : String → Option (List Byte)) (prog f : String),
      fs f = some file → file.take 4 = ELFMAG →
      ident file EI_CLASS ≤ 2 → ident file EI_DATA ≤ 2 →
      ∃ pre, main host fs [prog, f] =
        Outcome.exited 0
          { stdout := pre ++ ("  Entry point address:               0x" ++ fmt_lx v ++ "\n")
            stderr := ""
            opened := 1
            closed := 1 } := by
  have he : (Elf64_Ehdr.ofBytes host (file.take sizeof_header)).e_entry = v := by
    unfold Elf64_Ehdr.ofBytes
    simp only
    rw [entry_bytes, hentry, load_encode64 host v hv]
  refine ⟨he, ?_⟩
  intro fs prog f ho hm hc hd
  have h1 : ident (Elf64_Ehdr.ofBytes host (file.take sizeof_header)).e_ident EI_CLASS <
      arrayLen classes := by
    rw [ident_header host file _ (by decide)]
    have : arrayLen classes = 3 := rfl
    omega
  have h2 : ident (Elf64_Ehdr.ofBytes host (file.take sizeof_header)).e_ident EI_DATA <
      arrayLen datas := by
    rw [ident_header host file _ (by decide)]
    have : arrayLen datas = 3 := rfl
    omega
  have h3 : ident (Elf64_Ehdr.ofBytes host (file.take sizeof_header)).e_ident EI_OSABI <
      arrayLen osabis := ident_lt _ _
  have h4 : (Elf64_Ehdr.ofBytes host (file.take sizeof_header)).e_type < arrayLen types :=
    e_type_lt host _
  obtain ⟨lc, hc'⟩ := arrayGet_of_lt _ _ h1
  obtain ⟨ld, hd'⟩ := arrayGet_of_lt _ _ h2
  obtain ⟨lo, ho'⟩ := arrayGet_of_lt _ _ h3
  obtain ⟨lt, ht'⟩ := arrayGet_of_lt _ _ h4
  refine ⟨cat
    [ "ELF Header:\n",
      magic_text (Elf64_Ehdr.ofBytes host (file.take sizeof_header)).e_ident,
      "  Class:                             " ++ lc ++ "\n",
      "  Data:                              " ++ ld ++ "\n",
      "  Version:                           " ++
        fmt_d (ident (Elf64_Ehdr.ofBytes host (file.take sizeof_header)).e_ident 6) ++
        " (current)\n",
      "  OS/ABI:                            " ++ lo ++ "\n",
      "  ABI Version:                       " ++
        fmt_u (ident (Elf64_Ehdr.ofBytes host (file.take sizeof_header)).e_ident 8) ++ "\n",
      "  Type:                              " ++ lt ++ "\n" ], ?_⟩
  rw [main_two_args, elf_header_good_magic host fs f _ file ho hlen hm,
    report_steps_eq _ _ lc ld lo lt hc' hd' ho' ht']
  simp only [report_text, cat, he, String.append_assoc, String.append_empty, World.start,
    String.empty_append, Nat.zero_add]

/-- Witness of C9, amended: a little-endian machine and a header that declares
big-endian data but holds `0x400078` in little-endian order. -/
theorem C9_entry_round_trip_host_order_witness :
    ident (entryFile 2 (encode64 ByteOrder.lsb 0x400078)) EI_DATA = ELFDATA2MSB ∧
    (Elf64_Ehdr.ofBytes ByteOrder.lsb
      ((entryFile 2 (encode64 ByteOrder.lsb 0x400078)).take 64)).e_entry = 0x400078 :=
  ⟨by decide,
    (C9_entry_round_trip_host_order ByteOrder.lsb
      (entryFile 2 (encode64 ByteOrder.lsb 0x400078)) 0x400078 (by decide) (by decide)
      (by decide)).1⟩

/-- C9 as stated fails: on a little-endian machine a header that declares
big-endian data and holds `0x400078` in big-endian order is decoded to
`0x7800400000000000`, and printed so; on a big-endian machine the same happens
to a header that declares little-endian data and holds the value in
little-endian order. -/
theorem C9_declared_byte_order_ignored :
    (ident beFile EI_DATA = ELFDATA2MSB ∧
      (beFile.drop 24).take 8 = encode64 ByteOrder.msb 0x400078 ∧
      (Elf64_Ehdr.ofBytes ByteOrder.lsb (beFile.take 64)).e_entry = 0x7800400000000000 ∧
      main ByteOrder.lsb (oneFile "a.out" beFile) ["elf_header", "a.out"] =
        Outcome.exited 0
          { stdout :=
              "ELF Header:\n" ++
              "  Magic:   7f 45 4c 46 02 02 01 00 00 00 00 00 00 00 00 00\n" ++
              "  Class:                             ELF64\n" ++
              "  Data:                              2's complement, big endian\n" ++
              "  Version:                           1 (current)\n" ++
              "  OS/ABI:                            UNIX - System V\n" ++
              "  ABI Version:                       0\n" ++
              "  Type:                              NONE (Unknown type)\n" ++
              "  Entry point address:               0x7800400000000000\n"
            stderr := ""
            opened := 1
            closed := 1 }) ∧
    (ident leFile EI_DATA = ELFDATA2LSB ∧
      (leFile.drop 24).take 8 = encode64 ByteOrder.lsb 0x400078 ∧
      (Elf64_Ehdr.ofBytes ByteOrder.msb (leFile.take 64)).e_entry = 0x7800400000000000) := by
  refine ⟨⟨by decide, by decide, by decide, by rfl⟩, by decide, by decide, by decide⟩

/-! ## Output of runs that do not complete -/

/-- C10, amended: on each of the four failures the run ends with status 98 and
nothing on standard output; so a run that has put anything on standard output
has opened the file, read 64 bytes and found the magic. -/
theorem C10_no_output_on_failure (host : ByteOrder) (fs : String → Option (List Byte))
    (av : List String) :
    (Failure fs av → ∃ w, main host fs av = Outcome.exited 98 w ∧ w.stdout = "") ∧
    ((main host fs av).world.stdout ≠ "" → ¬ Failure fs av) := by
  refine ⟨main_failure host fs av, ?_⟩
  intro h hf
  obtain ⟨w, hw, hs⟩ := main_failure host fs av hf
  rw [hw] at h
  exact h hs

/-- Witness of C10, amended: a path that cannot be opened. -/
theorem C10_no_output_on_failure_witness :
    ∃ w, main ByteOrder.lsb (oneFile "a.out" scenario1) ["elf_header", "missing"] =
      Outcome.exited 98 w ∧ w.stdout = "" :=
  (C10_no_output_on_failure ByteOrder.lsb (oneFile "a.out" scenario1)
    ["elf_header", "missing"]).1
    (Or.inr (Or.inl ⟨"elf_header", "missing", rfl, by decide⟩))

/-- C10 as stated fails: with class byte 2 and data byte 3 the read of the
array `datas` is out of bounds, the run does not complete, and the title, the
Magic line and the Class line are already on standard output. -/
theorem C10_partial_report_before_failed_lookup :
    arrayGet datas (ident data3File EI_DATA) = CStr.outOfBounds ∧
    main ByteOrder.lsb (oneFile "a.out" data3File) ["elf_header", "a.out"] =
      Outcome.undefined
        { stdout :=
            "ELF Header:\n" ++
            "  Magic:   7f 45 4c 46 02 03 01 00 00 00 00 00 00 00 00 00\n" ++
            "  Class:                             ELF64\n"
          stderr := ""
          opened := 1
          closed := 0 } := by
  refine ⟨by decide, by rfl⟩

/-! ## Numerals printed by `printf` -/

theorem digitChar_eq_hexChar (d : Nat) (h : d < 16) : Nat.digitChar d = hexChar d := by
  interval_cases d <;> rfl

theorem digitVal_hexChar (d : Nat) (h : d < 16) : digitVal (hexChar d) = d := by
  interval_cases d <;> decide

theorem hexChar_mem (d : Nat) (h : d < 16) : hexChar d ∈ hexDigits := by
  interval_cases d <;> decide

theorem hexChar_eq_zero (d : Nat) (h : d < 16) (e : hexChar d = '0') : d = 0 := by
  interval_cases d <;> first | rfl | (exact absurd e (by decide))

theorem readBase_snoc (b : Nat) (pre : List Char) (c : Char) :
    readBase b (pre ++ [c]) = b * readBase b pre + digitVal c := by
  simp [readBase, List.foldl_append]

theorem toDigitsCore_spec (b : Nat) (hb : 2 ≤ b) (hb16 : b ≤ 16) :
    ∀ (fuel n : Nat) (ds : List Char), n < fuel →
      ∃ pre, Nat.toDigitsCore b fuel n ds = pre ++ ds ∧ pre ≠ [] ∧
        (∀ c ∈ pre, ∃ d, d < b ∧ c = hexChar d) ∧ readBase b pre = n ∧
        (n ≠ 0 → pre.head? ≠ some '0') ∧ (n = 0 → pre = ['0']) := by
  intro fuel
  induction fuel with
  | zero => intro n ds hn; omega
  | succ fuel ih =>
    intro n ds hn
    have hlt : n % b < b := Nat.mod_lt _ (by omega)
    have hc : Nat.digitChar (n % b) = hexChar (n % b) :=
      digitChar_eq_hexChar _ (by omega)
    by_cases h0 : n / b = 0
    · have hnb : n < b := by
        have h := Nat.div_add_mod n b
        rw [h0, Nat.mul_zero, Nat.zero_add] at h
        omega
      have hmod : n % b = n := Nat.mod_eq_of_lt hnb
      rw [hmod] at hc
      refine ⟨[hexChar n], ?_, by simp, ?_, ?_, ?_, ?_⟩
      · simp only [Nat.toDigitsCore, h0, if_true, hmod, hc, List.singleton_append]
      · intro c hcm
        rw [List.mem_singleton] at hcm
        exact ⟨n, hnb, hcm⟩
      · simp only [readBase, List.foldl_cons, List.foldl_nil, Nat.mul_zero, Nat.zero_add]
        exact digitVal_hexChar n (by omega)
      · intro hn0 e
        simp only [List.head?_cons, Option.some.injEq] at e
        exact hn0 (hexChar_eq_zero n (by omega) e)
      · intro hn0
        subst hn0
        rfl
    · have hpos : 0 < n := by
        rcases Nat.eq_zero_or_pos n with h | h
        · subst h; simp at h0
        · exact h
      have hdiv : n / b < fuel := by
        have : n / b < n := Nat.div_lt_self hpos (by omega)
        omega
      obtain ⟨pre, e, hne, hall, hread, hhead, _⟩ := ih (n / b) (Nat.digitChar (n % b) :: ds) hdiv
      refine ⟨pre ++ [hexChar (n % b)], ?_, by simp, ?_, ?_, ?_, ?_⟩
      · rw [hc] at e
        simp only [Nat.toDigitsCore, h0, if_false, hc, e, List.append_assoc,
          List.singleton_append]
      · intro c hcm
        rcases List.mem_append.1 hcm with h | h
        · exact hall c h
        · rw [List.mem_singleton] at h
          exact ⟨n % b, hlt, h⟩
      · rw [readBase_snoc, hread, digitVal_hexChar _ (by omega)]
        exact Nat.div_add_mod n b
      · intro _
        rw [List.head?_append_of_ne_nil _ hne]
        exact hhead h0
      · intro hn0
        omega

theorem toDigits_spec (b : Nat) (hb : 2 ≤ b) (hb16 : b ≤ 16) (n : Nat) :
    Nat.toDigits b n ≠ [] ∧ (∀ c ∈ Nat.toDigits b n, ∃ d, d < b ∧ c = hexChar d) ∧
      readBase b (Nat.toDigits b n) = n ∧
      (n ≠ 0 → (Nat.toDigits b n).head? ≠ some '0') ∧ (n = 0 → Nat.toDigits b n = ['0']) := by
  obtain ⟨pre, e, h⟩ := toDigitsCore_spec b hb hb16 (n + 1) n [] (by omega)
  have e' : Nat.toDigits b n = pre := by
    rw [Nat.toDigits, e, List.append_nil]
  rw [e']
  exact h

set_option maxRecDepth 100000 in
theorem fmt_02x_eq_hex2 : ∀ b : Byte, fmt_02x b.val = hex2 b := by decide

set_option maxRecDepth 100000 in
theorem hex2_spec : ∀ b : Byte, (hex2 b).length = 2 ∧ (∀ c ∈ (hex2 b).data, c ∈ hexDigits) ∧
    readBase 16 (hex2 b).data = b.val := by decide

theorem noNewline_append (a b : String) (ha : noNewline a) (hb : noNewline b) :
    noNewline (a ++ b) := by
  unfold noNewline at *
  rw [String.data_append, List.mem_append]
  rintro (h | h)
  · exact ha h
  · exact hb h

theorem noNewline_of_digits (s : String) (h : ∀ c ∈ s.data, c ∈ hexDigits) : noNewline s := by
  intro hm
  exact absurd (h _ hm) (by decide)

theorem noNewline_spaced_hex2 (l : List Byte) : noNewline (spaced (l.map hex2)) := by
  induction l with
  | nil => intro h; cases h
  | cons b t ih =>
    cases t with
    | nil => exact noNewline_of_digits _ (hex2_spec b).2.1
    | cons b' rest =>
      have h1 : noNewline (hex2 b) := noNewline_of_digits _ (hex2_spec b).2.1
      have h2 : noNewline " " := by unfold noNewline; decide
      exact noNewline_append _ _ (noNewline_append _ _ h1 h2) ih

theorem noNewline_toDigits (b : Nat) (hb : 2 ≤ b) (hb16 : b ≤ 16) (n : Nat) :
    noNewline (String.mk (Nat.toDigits b n)) := by
  apply noNewline_of_digits
  intro c hc
  obtain ⟨d, hd, e⟩ := (toDigits_spec b hb hb16 n).2.1 c hc
  rw [e]
  exact hexChar_mem d (by omega)

theorem magic_text_eq (e_ident : List Byte) (hlen : e_ident.length = 16) :
    magic_text e_ident = "  Magic:   " ++ spaced (e_ident.map hex2) ++ "\n" := by
  match e_ident, hlen with
  | [b0, b1, b2, b3, b4, b5, b6, b7, b8, b9, b10, b11, b12, b13, b14, b15], _ =>
    simp only [magic_text, List.range, List.range.loop, List.map, cat, ident,
      List.getD_cons_zero, List.getD_cons_succ, fmt_02x_eq_hex2, spaced,
      String.append_assoc, String.append_empty]
    rfl

/-! ## The lines of single fields -/

/-- C17: for every version byte `v` the Version line is the decimal numeral of
`v` followed by ` (current)`, and for every ABI version byte `a` the ABI
Version line is the decimal numeral of `a`; reading the numerals back gives
`v` and `a`.  Version 0 prints `0 (current)`. -/
theorem C17_version_and_abi_version_lines (v a : Byte) (w : World) :
    print_version v.val w =
      put_out w ("  Version:                           " ++ toString v.val ++ " (current)\n") ∧
    print_abi_version a.val w =
      put_out w ("  ABI Version:                       " ++ toString a.val ++ "\n") ∧
    readBase 10 (toString v.val).data = v.val ∧
    readBase 10 (toString a.val).data = a.val ∧
    print_version 0 World.start =
      put_out World.start "  Version:                           0 (current)\n" ∧
    print_version 2 World.start =
      put_out World.start "  Version:                           2 (current)\n" ∧
    print_abi_version 255 World.start =
      put_out World.start "  ABI Version:                       255\n" := by
  have hv : v.val < 2 ^ 31 := by have := v.isLt; omega
  refine ⟨?_, rfl, ?_, ?_, rfl, rfl, rfl⟩
  · unfold print_version fmt_d
    rw [if_pos hv]
    rfl
  · exact (toDigits_spec 10 (by decide) (by decide) v.val).2.2.1
  · exact (toDigits_spec 10 (by decide) (by decide) a.val).2.2.1

/-- C18: for 16 identification bytes `print_magic` prints the label, then the
bytes in order, each as two lowercase hexadecimal digits that read back as
the byte, single spaces between them, and a newline right after the
sixteenth; the line has no other newline. -/
theorem C18_magic_line (e_ident : List Byte) (w : World) (hlen : e_ident.length = 16) :
    print_magic e_ident w =
      put_out w ("  Magic:   " ++ spaced (e_ident.map hex2) ++ "\n") ∧
    (∀ b ∈ e_ident, (hex2 b).length = 2 ∧ (∀ c ∈ (hex2 b).data, c ∈ hexDigits)) ∧
    (e_ident.map hex2).map (fun s => readBase 16 s.data) = e_ident.map Fin.val ∧
    (e_ident.map hex2).length = 16 ∧
    noNewline (spaced (e_ident.map hex2)) := by
  refine ⟨?_, ?_, ?_, ?_, noNewline_spaced_hex2 e_ident⟩
  · rw [print_magic_eq, magic_text_eq e_ident hlen]
  · intro b _
    exact ⟨(hex2_spec b).1, (hex2_spec b).2.1⟩
  · rw [List.map_map]
    apply List.map_congr_left
    intro b _
    exact (hex2_spec b).2.2
  · rw [List.length_map, hlen]

/-- Witness of C18 at the identification bytes of scenario 1. -/
theorem C18_magic_line_witness :
    (scenario1.take 16).length = 16 ∧
    print_magic (scenario1.take 16) World.start =
      put_out World.start
        ("  Magic:   " ++ spaced ((scenario1.take 16).map hex2) ++ "\n") ∧
    spaced ((scenario1.take 16).map hex2) =
      "7f 45 4c 46 02 01 01 00 00 00 00 00 00 00 00 00" :=
  ⟨by decide, (C18_magic_line (scenario1.take 16) World.start (by decide)).1, by decide⟩

/-- C19: `print_entry` prints `0x` followed by the digits of the entry point in
base 16: at least one digit, all of them lowercase hexadecimal digits, reading
back as the entry point, the first one not `0` unless the entry point is 0,
which prints as `0x0`; `0x400078` prints as `0x400078`. -/
theorem C19_print_entry_hex (entry : Nat) (w : World) :
    print_entry entry w =
      put_out w ("  Entry point address:               0x" ++ fmt_lx entry ++ "\n") ∧
    (fmt_lx entry).data ≠ [] ∧
    (∀ c ∈ (fmt_lx entry).data, c ∈ hexDigits) ∧
    readBase 16 (fmt_lx entry).data = entry ∧
    (entry ≠ 0 → (fmt_lx entry).data.head? ≠ some '0') ∧
    fmt_lx 0 = "0" ∧
    fmt_lx 0x400078 = "400078" ∧
    fmt_lx 0xffffffffffffffff = "ffffffffffffffff" := by
  obtain ⟨h1, h2, h3, h4, _⟩ := toDigits_spec 16 (by decide) (by decide) entry
  refine ⟨rfl, h1, ?_, h3, h4, by decide, by decide, by decide⟩
  intro c hc
  obtain ⟨d, hd, e⟩ := h2 c hc
  rw [e]
  exact hexChar_mem d hd

/-- Witness of C19 at the entry point `0x400078`. -/
theorem C19_print_entry_hex_witness :
    (0x400078 : Nat) ≠ 0 ∧ (fmt_lx 0x400078).data.head? ≠ some '0' :=
  ⟨by decide, (C19_print_entry_hex 0x400078 World.start).2.2.2.2.1 (by decide)⟩

/-! ## `set_bit` -/

theorem to_ulong_shl_1L (index : Nat) (hi : index < 64) :
    to_ulong (shl_1L index) = 2 ^ index := by
  interval_cases index <;> rfl

theorem or_two_pow_ne_zero (n index : Nat) : n ||| 2 ^ index ≠ 0 := by
  intro h
  have hb : (n ||| 2 ^ index).testBit index = true := by
    rw [Nat.testBit_or, Nat.testBit_two_pow_self, Bool.or_true]
  rw [h] at hb
  simp at hb

theorem set_bit_valid (n index : Nat) (hi : index < 64) :
    set_bit n index = (1, n ||| 2 ^ index) := by
  unfold set_bit
  have hge : ¬ index ≥ sizeof_n * 8 := by
    simp only [sizeof_n]; omega
  rw [if_neg hge]
  simp only [to_ulong_shl_1L index hi]
  rw [if_pos (or_two_pow_ne_zero n index)]

/-- C13: for every 64-bit `n` and every index below 64, `set_bit` returns 1
and leaves `n OR 2^index` in `*n`, a 64-bit value in which bit `index` is 1
and every other bit is the bit of `n`. -/
theorem C13_set_bit_sets_the_bit (n index : Nat) (hn : n < 2 ^ 64) (hi : index < 64) :
    set_bit n index = (1, n ||| 2 ^ index) ∧
    (set_bit n index).2.testBit index = true ∧
    (∀ j, j ≠ index → (set_bit n index).2.testBit j = n.testBit j) ∧
    (set_bit n index).2 < 2 ^ 64 := by
  rw [set_bit_valid n index hi]
  refine ⟨rfl, ?_, ?_, ?_⟩
  · simp only [Nat.testBit_or, Nat.testBit_two_pow_self, Bool.or_true]
  · intro j hj
    have hne : ¬ index = j := fun e => hj e.symm
    simp only [Nat.testBit_or, Nat.testBit_two_pow, hne, decide_False, Bool.or_false]
  · exact Nat.or_lt_two_pow hn (Nat.pow_lt_pow_right (by decide) hi)

/-- Witness of C13 at `n = 0` and index 63. -/
theorem C13_set_bit_sets_the_bit_witness :
    set_bit 0 63 = (1, 0 ||| 2 ^ 63) ∧
    (set_bit 0 63).2.testBit 63 = true ∧
    (∀ j, j ≠ 63 → (set_bit 0 63).2.testBit j = Nat.testBit 0 j) ∧
    (set_bit 0 63).2 < 2 ^ 64 :=
  C13_set_bit_sets_the_bit 0 63 (by decide) (by decide)

/-- C14: `set_bit` returns -1 exactly when the index is 64 or more, and then
leaves `*n` as it was; for an index below 64 it returns 1. -/
theorem C14_set_bit_error_iff (n index : Nat) :
    ((set_bit n index).1 = -1 ↔ 64 ≤ index) ∧
    (64 ≤ index → set_bit n index = (-1, n)) ∧
    (index < 64 → (set_bit n index).1 = 1) := by
  have hbig : 64 ≤ index → set_bit n index = (-1, n) := by
    intro h
    unfold set_bit
    have hge : index ≥ sizeof_n * 8 := by
      simp only [sizeof_n]; omega
    rw [if_pos hge]
  have hsmall : index < 64 → (set_bit n index).1 = 1 := by
    intro h
    rw [set_bit_valid n index h]
  refine ⟨⟨?_, ?_⟩, hbig, hsmall⟩
  · intro h
    by_contra hlt
    rw [hsmall (by omega)] at h
    cases h
  · intro h
    rw [hbig h]

/-- Witness of C14 at index 64. -/
theorem C14_set_bit_error_iff_witness :
    (64 : Nat) ≤ 64 ∧ set_bit 5 64 = (-1, 5) :=
  ⟨by decide, (C14_set_bit_error_iff 5 64).2.1 (by decide)⟩

/-! ## The shape of the report -/

theorem fmt_s_arrayGet_label (inits : List (Nat × String)) (i : Nat) (s : String)
    (h : fmt_s (arrayGet inits i) = some s) :
    s = "(null)" ∨ ∃ p ∈ inits, p.2 = s := by
  unfold arrayGet at h
  split at h
  · cases h
  · cases hl : List.lookup i inits.reverse with
    | none =>
      rw [hl] at h
      left
      cases h
      rfl
    | some s' =>
      rw [hl] at h
      right
      cases h
      exact ⟨(i, s), List.mem_reverse.1 (mem_of_lookup _ _ _ hl), rfl⟩

theorem noNewline_label (inits : List (Nat × String)) (hall : ∀ p ∈ inits, noNewline p.2)
    (i : Nat) (s : String) (h : fmt_s (arrayGet inits i) = some s) : noNewline s := by
  rcases fmt_s_arrayGet_label inits i s h with e | ⟨p, hp, e⟩
  · rw [e]
    unfold noNewline
    decide
  · rw [← e]
    exact hall p hp

theorem report_steps_returned (header : Elf64_Ehdr) (w0 w : World)
    (h : report_steps header w0 = Outcome.returned w) :
    ∃ lc ld lo lt,
      fmt_s (arrayGet classes (ident header.e_ident EI_CLASS)) = some lc ∧
      fmt_s (arrayGet datas (ident header.e_ident EI_DATA)) = some ld ∧
      fmt_s (arrayGet osabis (ident header.e_ident EI_OSABI)) = some lo ∧
      fmt_s (arrayGet types header.e_type) = some lt ∧
      w = { stdout := w0.stdout ++ report_text header lc ld lo lt
            stderr := w0.stderr
            opened := w0.opened
            closed := w0.closed + 1 } := by
  cases hc : fmt_s (arrayGet classes (ident header.e_ident EI_CLASS)) with
  | none => simp [report_steps, print_class, hc] at h
  | some lc =>
    cases hd : fmt_s (arrayGet datas (ident header.e_ident EI_DATA)) with
    | none => simp [report_steps, print_class, print_data, hc, hd] at h
    | some ld =>
      cases ho : fmt_s (arrayGet osabis (ident header.e_ident EI_OSABI)) with
      | none => simp [report_steps, print_class, print_data, print_osabi, hc, hd, ho] at h
      | some lo =>
        cases ht : fmt_s (arrayGet types header.e_type) with
        | none =>
          simp [report_steps, print_class, print_data, print_osabi, print_type, hc, hd,
            ho, ht] at h
        | some lt =>
          rw [report_steps_eq header w0 lc ld lo lt hc hd ho ht] at h
          cases h
          exact ⟨lc, ld, lo, lt, rfl, rfl, rfl, rfl, rfl⟩

theorem main_exit_0 (host : ByteOrder) (fs : String → Option (List Byte))
    (av : List String) (w : World) (h : main host fs av = Outcome.exited 0 w) :
    ∃ prog f file, av = [prog, f] ∧ fs f = some file ∧ 64 ≤ file.length ∧
      file.take 4 = ELFMAG ∧
      report_steps (Elf64_Ehdr.ofBytes host (file.take sizeof_header))
        { World.start with opened := World.start.opened + 1 } = Outcome.returned w := by
  have hf : ¬ Failure fs av := by
    intro hf
    obtain ⟨w0, hw, _⟩ := main_failure host fs av hf
    rw [hw] at h
    cases h
  obtain ⟨prog, f, file, rfl, ho, hl, hm, hmain⟩ := main_not_failure host fs av hf
  refine ⟨prog, f, file, rfl, ho, hl, hm, ?_⟩
  rw [hmain] at h
  split at h
  · rename_i w' hr
    cases h
    exact hr
  · exact absurd h (report_steps_not_exited _ _ _ _)

theorem e_ident_length (host : ByteOrder) (file : List Byte) (hlen : 64 ≤ file.length) :
    (Elf64_Ehdr.ofBytes host (file.take sizeof_header)).e_ident.length = 16 := by
  simp only [Elf64_Ehdr.ofBytes, List.length_take, EI_NIDENT, sizeof_header]
  omega

/-- C11: the standard output of every run that ends with status 0 is the title
line followed by exactly eight lines, in the order Magic, Class, Data,
Version, OS/ABI, ABI Version, Type, Entry point address: each is its label,
a text without newline, and a newline. -/
theorem C11_report_lines_in_order (host : ByteOrder) (fs : String → Option (List Byte))
    (av : List String) (w : World) (h : main host fs av = Outcome.exited 0 w) :
    ∃ m c d v o a t e : String,
      noNewline m ∧ noNewline c ∧ noNewline d ∧ noNewline v ∧ noNewline o ∧
      noNewline a ∧ noNewline t ∧ noNewline e ∧
      w.stdout = cat
        [ "ELF Header:\n",
          "  Magic:   " ++ m ++ "\n",
          "  Class:                             " ++ c ++ "\n",
          "  Data:                              " ++ d ++ "\n",
          "  Version:                           " ++ v ++ "\n",
          "  OS/ABI:                            " ++ o ++ "\n",
          "  ABI Version:                       " ++ a ++ "\n",
          "  Type:                              " ++ t ++ "\n",
          "  Entry point address:               " ++ e ++ "\n" ] := by
  obtain ⟨prog, f, file, rfl, ho, hl, hm, hr⟩ := main_exit_0 host fs av w h
  obtain ⟨lc, ld, lo, lt, hc, hd, hos, ht, hw⟩ := report_steps_returned _ _ _ hr
  have hver : ident (Elf64_Ehdr.ofBytes host (file.take sizeof_header)).e_ident 6 < 2 ^ 31 := by
    have := ident_lt (Elf64_Ehdr.ofBytes host (file.take sizeof_header)).e_ident 6
    omega
  refine ⟨spaced ((Elf64_Ehdr.ofBytes host (file.take sizeof_header)).e_ident.map hex2),
    lc, ld,
    fmt_d (ident (Elf64_Ehdr.ofBytes host (file.take sizeof_header)).e_ident 6) ++ " (current)",
    lo, fmt_u (ident (Elf64_Ehdr.ofBytes host (file.take sizeof_header)).e_ident 8), lt,
    "0x" ++ fmt_lx (Elf64_Ehdr.ofBytes host (file.take sizeof_header)).e_entry,
    noNewline_spaced_hex2 _, ?_, ?_, ?_, ?_, ?_, ?_, ?_, ?_⟩
  · exact noNewline_label classes (by unfold noNewline; decide) _ _ hc
  · exact noNewline_label datas (by unfold noNewline; decide) _ _ hd
  · apply noNewline_append
    · unfold fmt_d
      rw [if_pos hver]
      exact noNewline_toDigits 10 (by decide) (by decide) _
    · unfold noNewline; decide
  · exact noNewline_label osabis (by unfold noNewline; decide) _ _ hos
  · exact noNewline_toDigits 10 (by decide) (by decide) _
  · exact noNewline_label types (by unfold noNewline; decide) _ _ ht
  · apply noNewline_append
    · unfold noNewline; decide
    · exact noNewline_toDigits 16 (by decide) (by decide) _
  · rw [hw]
    simp only [report_text, cat, magic_text_eq _ (e_ident_length host file hl), World.start,
      String.empty_append, String.append_assoc, String.append_empty]
    rfl

/-- Witness of C11 at the header of scenario 1. -/
theorem C11_report_lines_in_order_witness :
    ∃ m c d v o a t e : String,
      noNewline m ∧ noNewline c ∧ noNewline d ∧ noNewline v ∧ noNewline o ∧
      noNewline a ∧ noNewline t ∧ noNewline e ∧
      "ELF Header:\n" ++
        "  Magic:   7f 45 4c 46 02 01 01 00 00 00 00 00 00 00 00 00\n" ++
        "  Class:                             ELF64\n" ++
        "  Data:                              2's complement, little endian\n" ++
        "  Version:                           1 (current)\n" ++
        "  OS/ABI:                            UNIX - System V\n" ++
        "  ABI Version:                       0\n" ++
        "  Type:                              EXEC (Executable file)\n" ++
        "  Entry point address:               0x400078\n" = cat
        [ "ELF Header:\n",
          "  Magic:   " ++ m ++ "\n",
          "  Class:                             " ++ c ++ "\n",
          "  Data:                              " ++ d ++ "\n",
          "  Version:                           " ++ v ++ "\n",
          "  OS/ABI:                            " ++ o ++ "\n",
          "  ABI Version:                       " ++ a ++ "\n",
          "  Type:                              " ++ t ++ "\n",
          "  Entry point address:               " ++ e ++ "\n" ] :=
  C11_report_lines_in_order ByteOrder.lsb (oneFile "a.out" scenario1) ["elf_header", "a.out"]
    { stdout :=
        "ELF Header:\n" ++
        "  Magic:   7f 45 4c 46 02 01 01 00 00 00 00 00 00 00 00 00\n" ++
        "  Class:                             ELF64\n" ++
        "  Data:                              2's complement, little endian\n" ++
        "  Version:                           1 (current)\n" ++
        "  OS/ABI:                            UNIX - System V\n" ++
        "  ABI Version:                       0\n" ++
        "  Type:                              EXEC (Executable file)\n" ++
        "  Entry point address:               0x400078\n"
      stderr := ""
      opened := 1
      closed := 1 } (by rfl)

/-! ## The file descriptor -/

/-- C12: after a short read and after a magic mismatch the run ends with one
successful `open` and no `close` call, whereas a run that prints the report
ends with one of each. -/
theorem C12_no_close_on_error_exit (host : ByteOrder) (fs : String → Option (List Byte))
    (av : List String) :
    (TruncatedReadError fs av ∨ MagicMismatchError fs av →
      ∃ w, main host fs av = Outcome.exited 98 w ∧ w.opened = 1 ∧ w.closed = 0) ∧
    (∀ w, main host fs av = Outcome.exited 0 w → w.opened = 1 ∧ w.closed = 1) := by
  constructor
  · rintro (⟨prog, f, file, rfl, ho, hl⟩ | ⟨prog, f, file, rfl, ho, hl, hm⟩)
    · rw [main_two_args, elf_header_short_read host fs f _ file ho hl]
      exact ⟨_, rfl, rfl, rfl⟩
    · rw [main_two_args, elf_header_bad_magic host fs f _ file ho hl hm]
      exact ⟨_, rfl, rfl, rfl⟩
  · intro w h
    obtain ⟨prog, f, file, rfl, ho, hl, hm, hr⟩ := main_exit_0 host fs av w h
    obtain ⟨lc, ld, lo, lt, _, _, _, _, hw⟩ := report_steps_returned _ _ _ hr
    rw [hw]
    exact ⟨rfl, rfl⟩

/-- Witness of C12: an empty file. -/
theorem C12_no_close_on_error_exit_witness :
    ∃ w, main ByteOrder.lsb (oneFile "empty" []) ["elf_header", "empty"] =
      Outcome.exited 98 w ∧ w.opened = 1 ∧ w.closed = 0 :=
  (C12_no_close_on_error_exit ByteOrder.lsb (oneFile "empty" [])
    ["elf_header", "empty"]).1
    (Or.inl ⟨"elf_header", "empty", [], rfl, by decide, by decide⟩)

/-! ## The diagnostics -/

/-- C15, amended: each failure writes one line to standard error.  For an open
failure and a short read it is `Error: <reason> '<path>'`, with the reasons
`Unable to open file` and `Unable to read ELF header from file`; for a magic
mismatch it is `Error: '<path>' is not an ELF file`; for a wrong number of
arguments it is `Usage: <program> elf_filename`. -/
theorem C15_diagnostic_lines (host : ByteOrder) (fs : String → Option (List Byte))
    (av : List String) :
    (∀ prog f, av = [prog, f] → fs f = none →
      ∃ w, main host fs av = Outcome.exited 98 w ∧
        w.stderr = "Error: " ++ "Unable to open file" ++ " '" ++ f ++ "'\n") ∧
    (∀ prog f file, av = [prog, f] → fs f = some file → file.length < 64 →
      ∃ w, main host fs av = Outcome.exited 98 w ∧
        w.stderr = "Error: " ++ "Unable to read ELF header from file" ++ " '" ++ f ++ "'\n") ∧
    (∀ prog f file, av = [prog, f] → fs f = some file → 64 ≤ file.length →
      file.take 4 ≠ ELFMAG →
      ∃ w, main host fs av = Outcome.exited 98 w ∧
        w.stderr = "Error: '" ++ f ++ "' is not an ELF file\n") ∧
    (∀ prog rest, av = prog :: rest → rest.length ≠ 1 →
      ∃ w, main host fs av = Outcome.exited 98 w ∧
        w.stderr = "Usage: " ++ prog ++ " elf_filename\n") := by
  refine ⟨?_, ?_, ?_, ?_⟩
  · rintro prog f rfl ho
    rw [main_two_args, elf_header_open_fails host fs f _ ho]
    refine ⟨_, rfl, ?_⟩
    simp only [put_err, World.start, String.empty_append, String.append_assoc]
    rfl
  · rintro prog f file rfl ho hl
    rw [main_two_args, elf_header_short_read host fs f _ file ho hl]
    refine ⟨_, rfl, ?_⟩
    simp only [put_err, World.start, String.empty_append, String.append_assoc]
    rfl
  · rintro prog f file rfl ho hl hm
    rw [main_two_args, elf_header_bad_magic host fs f _ file ho hl hm]
    exact ⟨_, rfl, rfl⟩
  · rintro prog rest rfl hr
    have hlen : (prog :: rest).length ≠ 2 := by
      simp only [List.length_cons]; omega
    refine ⟨put_err World.start ("Usage: " ++ prog ++ " elf_filename\n"), ?_, rfl⟩
    unfold main
    rw [if_pos hlen]
    rfl

/-- Witness of C15, amended: a path that cannot be opened. -/
theorem C15_diagnostic_lines_witness :
    ∃ w, main ByteOrder.lsb (oneFile "a.out" scenario1) ["elf_header", "nofile"] =
      Outcome.exited 98 w ∧
      w.stderr = "Error: " ++ "Unable to open file" ++ " '" ++ "nofile" ++ "'\n" :=
  (C15_diagnostic_lines ByteOrder.lsb (oneFile "a.out" scenario1)
    ["elf_header", "nofile"]).1 "elf_header" "nofile" rfl (by decide)

/-- C15 as stated fails: with no file argument the line on standard error is
`Usage: elf_header elf_filename`, which does not begin with `Error: `; and for
a wrong magic the line is `Error: 'a.out' is not an ELF file`, which does not
end with the quoted path. -/
theorem C15_usage_and_magic_lines_differ :
    main ByteOrder.lsb (oneFile "a.out" scenario1) ["elf_header"] =
      Outcome.exited 98
        { stdout := ""
          stderr := "Usage: elf_header elf_filename\n"
          opened := 0
          closed := 0 } ∧
    "Usage: elf_header elf_filename\n".data.take 7 ≠ "Error: ".data ∧
    main ByteOrder.lsb (oneFile "a.out" badMagicFile) ["elf_header", "a.out"] =
      Outcome.exited 98
        { stdout := ""
          stderr := "Error: 'a.out' is not an ELF file\n"
          opened := 1
          closed := 0 } ∧
    "Error: 'a.out' is not an ELF file\n".data.reverse.take 8 ≠ "'a.out'\n".data.reverse := by
  refine ⟨by rfl, by decide, by rfl, by decide⟩

/-! ## The object type -/

theorem load_encode16 (host : ByteOrder) (t : Nat) (ht : t < 65536) :
    load host (encode16 host t) = t := by
  cases host with
  | lsb =>
    simp only [load, encode16, byteAt, List.foldr]
    norm_num
    omega
  | msb =>
    simp only [load, encode16, byteAt, List.foldl]
    norm_num
    omega

theorem type_bytes (file : List Byte) :
    ((file.take sizeof_header).drop offsetof_e_type).take 2 = (file.drop 16).take 2 := by
  simp [sizeof_header, offsetof_e_type, List.drop_take, List.take_take]

/-- C16, amended: the object type is read in the byte order of the machine
that runs the program, whatever the data byte declares.  For every type `t`
with a name and every file of at least 64 bytes whose bytes 16 and 17 hold `t`
in that order, the field `e_type` seen by `elf_header` is `t`; and when the
file opens, has the magic and class and data bytes at most 2, the run ends
with status 0 and the report has the Type line with the name of `t`. -/
theorem C16_type_host_order (host : ByteOrder) (file : List Byte) (t : Nat) (lt : String)
    (hname : type_names.lookup t = some lt) (hlen : 64 ≤ file.length)
    (htype : (file.drop 16).take 2 = encode16 host t) :
    (Elf64_Ehdr.ofBytes host (file.take 64)).e_type = t ∧
    ∀ (fs : String → Option (List Byte)) (prog f : String),
      fs f = some file → file.take 4 = ELFMAG →
      ident file EI_CLASS ≤ 2 → ident file EI_DATA ≤ 2 →
      ∃ lc ld lo, main host fs [prog, f] =
        Outcome.exited 0
          { stdout := report_text (Elf64_Ehdr.ofBytes host (file.take 64)) lc ld lo lt
            stderr := ""
            opened := 1
            closed := 1 } := by
  have hlt : t < 65536 := by
    have all : ∀ p ∈ type_names, p.1 < 65536 := by decide
    exact all _ (mem_of_lookup _ _ _ hname)
  have he : (Elf64_Ehdr.ofBytes host (file.take sizeof_header)).e_type = t := by
    unfold Elf64_Ehdr.ofBytes
    simp only
    rw [type_bytes, htype, load_encode16 host t hlt]
  refine ⟨he, ?_⟩
  intro fs prog f ho hm hc hd
  have h1 : ident (Elf64_Ehdr.ofBytes host (file.take sizeof_header)).e_ident EI_CLASS <
      arrayLen classes := by
    rw [ident_header host file _ (by decide)]
    have : arrayLen classes = 3 := rfl
    omega
  have h2 : ident (Elf64_Ehdr.ofBytes host (file.take sizeof_header)).e_ident EI_DATA <
      arrayLen datas := by
    rw [ident_header host file _ (by decide)]
    have : arrayLen datas = 3 := rfl
    omega
  have h3 : ident (Elf64_Ehdr.ofBytes host (file.take sizeof_header)).e_ident EI_OSABI <
      arrayLen osabis := ident_lt _ _
  obtain ⟨lc, hc'⟩ := arrayGet_of_lt _ _ h1
  obtain ⟨ld, hd'⟩ := arrayGet_of_lt _ _ h2
  obtain ⟨lo, ho'⟩ := arrayGet_of_lt _ _ h3
  have ht' : fmt_s (arrayGet types (Elf64_Ehdr.ofBytes host (file.take sizeof_header)).e_type) =
      some lt := by
    rw [he]
    exact type_names_sound t lt hname
  refine ⟨lc, ld, lo, ?_⟩
  rw [main_two_args, elf_header_good_magic host fs f _ file ho hlen hm,
    report_steps_eq _ _ lc ld lo lt hc' hd' ho' ht']
  rfl

/-- Witness of C16, amended: a little-endian machine and a header that declares
big-endian data but holds `ET_EXEC` in little-endian order. -/
theorem C16_type_host_order_witness :
    ident (typeFile 2 (encode16 ByteOrder.lsb ET_EXEC)) EI_DATA = ELFDATA2MSB ∧
    (Elf64_Ehdr.ofBytes ByteOrder.lsb
      ((typeFile 2 (encode16 ByteOrder.lsb ET_EXEC)).take 64)).e_type = ET_EXEC :=
  ⟨by decide,
    (C16_type_host_order ByteOrder.lsb (typeFile 2 (encode16 ByteOrder.lsb ET_EXEC)) ET_EXEC
      "EXEC (Executable file)" (by decide) (by decide) (by decide)).1⟩

/-- C16 as stated fails: on a little-endian machine a header that declares
big-endian data and holds `ET_EXEC` in big-endian order is read as type
`0x200`, which has no name, and the Type line does not name `EXEC`, while the
header that declares little-endian data and holds `ET_EXEC` in little-endian
order gets the `EXEC` line; on a big-endian machine that second header is
read as `0x200`. -/
theorem C16_declared_byte_order_ignored_for_type :
    (ident beExecFile EI_DATA = ELFDATA2MSB ∧
      (beExecFile.drop 16).take 2 = encode16 ByteOrder.msb ET_EXEC ∧
      (Elf64_Ehdr.ofBytes ByteOrder.lsb (beExecFile.take 64)).e_type = 0x200 ∧
      main ByteOrder.lsb (oneFile "a.out" beExecFile) ["elf_header", "a.out"] =
        Outcome.exited 0
          { stdout :=
              "ELF Header:\n" ++
              "  Magic:   7f 45 4c 46 02 02 01 00 00 00 00 00 00 00 00 00\n" ++
              "  Class:                             ELF64\n" ++
              "  Data:                              2's complement, big endian\n" ++
              "  Version:                           1 (current)\n" ++
              "  OS/ABI:                            UNIX - System V\n" ++
              "  ABI Version:                       0\n" ++
              "  Type:                              (null)\n" ++
              "  Entry point address:               0x0\n"
            stderr := ""
            opened := 1
            closed := 1 }) ∧
    (ident leExecFile EI_DATA = ELFDATA2LSB ∧
      (leExecFile.drop 16).take 2 = encode16 ByteOrder.lsb ET_EXEC ∧
      (Elf64_Ehdr.ofBytes ByteOrder.msb (leExecFile.take 64)).e_type = 0x200 ∧
      main ByteOrder.lsb (oneFile "a.out" leExecFile) ["elf_header", "a.out"] =
        Outcome.exited 0
          { stdout :=
              "ELF Header:\n" ++
              "  Magic:   7f 45 4c 46 02 01 01 00 00 00 00 00 00 00 00 00\n" ++
              "  Class:                             ELF64\n" ++
              "  Data:                              2's complement, little endian\n" ++
              "  Version:                           1 (current)\n" ++
              "  OS/ABI:                            UNIX - System V\n" ++
              "  ABI Version:                       0\n" ++
              "  Type:                              EXEC (Executable file)\n" ++
              "  Entry point address:               0x0\n"
            stderr := ""
            opened := 1
            closed := 1 }) := by
  refine ⟨⟨by decide, by decide, by decide, by rfl⟩, by decide, by decide, by decide, by rfl⟩

/-! ## Bounds of the table reads -/

theorem report_steps_data_out (header : Elf64_Ehdr) (w : World) (lc : String)
    (hc : fmt_s (arrayGet classes (ident header.e_ident EI_CLASS)) = some lc)
    (hd : arrayLen datas ≤ ident header.e_ident EI_DATA) :
    ∃ w', report_steps header w = Outcome.undefined w' := by
  have hd' : fmt_s (arrayGet datas (ident header.e_ident EI_DATA)) = none := by
    unfold arrayGet
    rw [if_pos hd]
    rfl
  unfold report_steps
  simp only [print_class, hc, Option.map_some', print_data, hd', Option.map_none']
  exact ⟨_, rfl⟩

/-- C20: the arrays `classes` and `datas` have 3 elements, `osabis` has 256 and
`types` has 65536, their last elements being designated.  For every header
the OS/ABI byte and the 16-bit type are inside their arrays, so the four
reads are all in bounds exactly when the class byte and the data byte are at
most 2; and for a file that opens with the magic in place, the run reaches a
read out of bounds exactly when that fails. -/
theorem C20_table_reads_in_bounds_iff (host : ByteOrder) (file : List Byte) :
    arrayLen classes = 3 ∧ arrayLen datas = 3 ∧ arrayLen osabis = 256 ∧
    arrayLen types = 65536 ∧
    arrayGet osabis 255 = CStr.str "Standalone (embedded) application" ∧
    arrayGet types 0xffff = CStr.str "HIPROC (Processor-specific)" ∧
    ident (Elf64_Ehdr.ofBytes host (file.take 64)).e_ident EI_OSABI < arrayLen osabis ∧
    (Elf64_Ehdr.ofBytes host (file.take 64)).e_type < arrayLen types ∧
    ((ident (Elf64_Ehdr.ofBytes host (file.take 64)).e_ident EI_CLASS < arrayLen classes ∧
        ident (Elf64_Ehdr.ofBytes host (file.take 64)).e_ident EI_DATA < arrayLen datas ∧
        ident (Elf64_Ehdr.ofBytes host (file.take 64)).e_ident EI_OSABI < arrayLen osabis ∧
        (Elf64_Ehdr.ofBytes host (file.take 64)).e_type < arrayLen types) ↔
      (ident file EI_CLASS ≤ 2 ∧ ident file EI_DATA ≤ 2)) ∧
    (∀ (fs : String → Option (List Byte)) (prog f : String),
      fs f = some file → 64 ≤ file.length → file.take 4 = ELFMAG →
      ((∃ w, main host fs [prog, f] = Outcome.undefined w) ↔
        ¬ (ident file EI_CLASS ≤ 2 ∧ ident file EI_DATA ≤ 2))) := by
  have l1 : arrayLen classes = 3 := rfl
  have l2 : arrayLen datas = 3 := rfl
  have l3 : arrayLen osabis = 256 := rfl
  have l4 : arrayLen types = 65536 := rfl
  have ic : ident (Elf64_Ehdr.ofBytes host (file.take sizeof_header)).e_ident EI_CLASS =
      ident file EI_CLASS := ident_header host file _ (by decide)
  have id : ident (Elf64_Ehdr.ofBytes host (file.take sizeof_header)).e_ident EI_DATA =
      ident file EI_DATA := ident_header host file _ (by decide)
  have h3 : ident (Elf64_Ehdr.ofBytes host (file.take sizeof_header)).e_ident EI_OSABI <
      arrayLen osabis := ident_lt _ _
  have h4 : (Elf64_Ehdr.ofBytes host (file.take sizeof_header)).e_type < arrayLen types :=
    e_type_lt host _
  refine ⟨l1, l2, l3, l4, by decide, by decide, h3, h4, ?_, ?_⟩
  · have ic' : ident (Elf64_Ehdr.ofBytes host (file.take 64)).e_ident EI_CLASS =
        ident file EI_CLASS := ic
    have id' : ident (Elf64_Ehdr.ofBytes host (file.take 64)).e_ident EI_DATA =
        ident file EI_DATA := id
    rw [ic', id', l1, l2]
    constructor
    · rintro ⟨a, b, _, _⟩
      exact ⟨by omega, by omega⟩
    · rintro ⟨a, b⟩
      exact ⟨by omega, by omega, h3, h4⟩
  · intro fs prog f ho hl hm
    rw [main_two_args, elf_header_good_magic host fs f _ file ho hl hm]
    constructor
    · rintro ⟨w, hw⟩ ⟨hc, hd⟩
      obtain ⟨w', hw'⟩ := report_steps_returns host file
        { World.start with opened := World.start.opened + 1 } hc hd
      rw [hw'] at hw
      cases hw
    · intro hn
      by_cases hc : ident file EI_CLASS ≤ 2
      · have hd : arrayLen datas ≤
            ident (Elf64_Ehdr.ofBytes host (file.take sizeof_header)).e_ident EI_DATA := by
          rw [id, l2]
          by_contra hlt
          exact hn ⟨hc, by omega⟩
        have hc1 : ident (Elf64_Ehdr.ofBytes host (file.take sizeof_header)).e_ident EI_CLASS <
            arrayLen classes := by
          rw [ic, l1]; omega
        obtain ⟨lc, hc'⟩ := arrayGet_of_lt _ _ hc1
        obtain ⟨w', hw'⟩ := report_steps_data_out _
          { World.start with opened := World.start.opened + 1 } lc hc' hd
        exact ⟨w', by rw [hw']⟩
      · have hc1 : arrayLen classes ≤
            ident (Elf64_Ehdr.ofBytes host (file.take sizeof_header)).e_ident EI_CLASS := by
          rw [ic, l1]; omega
        exact ⟨_, by rw [report_steps_class_out _ _ hc1]⟩

/-- Witness of C20: the header with class byte 99 reaches a read out of bounds,
the header of scenario 1 does not. -/
theorem C20_table_reads_in_bounds_iff_witness :
    (∃ w, main ByteOrder.lsb (oneFile "a.out" class99File) ["elf_header", "a.out"] =
      Outcome.undefined w) ∧
    ¬ (∃ w, main ByteOrder.lsb (oneFile "a.out" scenario1) ["elf_header", "a.out"] =
      Outcome.undefined w) :=
  ⟨((C20_table_reads_in_bounds_iff ByteOrder.lsb class99File).2.2.2.2.2.2.2.2.2
      (oneFile "a.out" class99File) "elf_header" "a.out" (by decide) (by decide)
      (by decide)).2 (by decide),
    fun h => ((C20_table_reads_in_bounds_iff ByteOrder.lsb scenario1).2.2.2.2.2.2.2.2.2
      (oneFile "a.out" scenario1) "elf_header" "a.out" (by decide) (by decide)
      (by decide)).1 h (by decide)⟩

end ElfHeader
